import Mathlib

/-!
Verification development for the beads storage and identity engine.

This file shallowly embeds the parts of the beads repository that the
frozen claims are about:

* the `UpdateIssueID` rename cascade over the multi-table issue graph
  (file `internal/storage/dolt` rename code), including the
  connection-scoped `FOREIGN_KEY_CHECKS` toggle and transaction
  rollback semantics;
* `RenameDependencyPrefixTx` (source name `RenameDependencyPrefix`),
  embedding MySQL `LIKE`/`SUBSTRING`/`CONCAT` semantics;
* the federation credential subsystem of
  `internal/storage/dolt/credentials.go` (`migrateCredentialKeys`,
  `withPeerCredentials`, `AddFederationPeer`, `RemoveFederationPeer`,
  `validatePeerName`), with the AES-GCM primitives abstracted as
  function parameters where only their use sites are claimed about;
* the AES-GCM wrapping structure of `encryptWithKey` / `decryptWithKey`
  (`nonce || ciphertext || tag`), parametric in the block cipher;
* the `isHashID` identifier classifier.

Strings from the Go source are modelled as `List Char` (`Str`), byte
strings as `List Nat` (`Bytes`).  SQL tables are lists of row
structures; a SQL `UPDATE t SET c = new WHERE c = old` is a `List.map`
that rewrites the matching column.  Fallible database statements are
driven by an explicit `Oracle` of success bits so that every exit path
of the Go code (early error return, rollback, failed commit) is a
reachable branch of the Lean function.
-/

/-- Strings of the Go source, modelled as lists of characters. -/
abbrev Str := List Char

/-- Byte strings (`[]byte` in Go), modelled as lists of naturals. -/
abbrev Bytes := List Nat

/-! ## Data model: rows of the issue graph tables -/

/-- The fields of `types.Issue` that `UpdateIssueID` reads
(title, description, design, acceptance criteria, notes). -/
structure Issue where
  title : Str
  description : Str
  design : Str
  acceptance_criteria : Str
  notes : Str
deriving DecidableEq

/-- A row of the `issues` (or `wisps`) table, restricted to the columns
the rename cascade touches. -/
structure IssueRow where
  id : Str
  title : Str
  description : Str
  design : Str
  acceptance_criteria : Str
  notes : Str
  updated_at : Nat
deriving DecidableEq

/-- A row of the `dependencies` (or `wisp_dependencies`) table. -/
structure DepRow where
  issue_id : Str
  depends_on_id : Str
deriving DecidableEq

/-- A row of the `events` (or `wisp_events`) table. -/
structure EventRow where
  issue_id : Str
  event_type : Str
  actor : Str
  old_value : Str
  new_value : Str
deriving DecidableEq

/-- A row of a table that references an issue only through its
`issue_id` column (`labels`, `comments`, `issue_snapshots`,
`compaction_snapshots`, `wisp_labels`, `wisp_comments`); the remaining
columns are abstracted into an opaque payload. -/
structure RefRow where
  issue_id : Str
  payload : Str
deriving DecidableEq

/-- A row of the `child_counters` table (`parent_id` plus counter). -/
structure CounterRow where
  parent_id : Str
  counter : Nat
deriving DecidableEq

/-- The relational state touched by the rename cascade. -/
structure DB where
  issues : List IssueRow
  wisps : List IssueRow
  dependencies : List DepRow
  events : List EventRow
  labels : List RefRow
  comments : List RefRow
  issue_snapshots : List RefRow
  compaction_snapshots : List RefRow
  child_counters : List CounterRow
  wisp_dependencies : List DepRow
  wisp_events : List EventRow
  wisp_labels : List RefRow
  wisp_comments : List RefRow
deriving DecidableEq

/-- Errors surfaced by the storage layer in this embedding. -/
inductive DbErr where
  | beginFailed : DbErr
  | setFKFailed : DbErr
  | stmtFailed : Nat → DbErr
  | notFound : Str → DbErr
  | commitFailed : DbErr
deriving DecidableEq

/-- A success oracle for the fallible database calls made by
`UpdateIssueID`: `stmtOk n` decides whether the `n`-th SQL statement
of the cascade executes without error, and the remaining bits drive
`BeginTx`, the two `SET FOREIGN_KEY_CHECKS` statements (the inline one
at the end of the happy path and the deferred one), and `Commit`. -/
structure Oracle where
  beginOk : Bool
  setFK0Ok : Bool
  stmtOk : Nat → Bool
  setFK1InlineOk : Bool
  setFK1DeferOk : Bool
  commitOk : Bool

/-- A database connection: committed state plus the connection-scoped
`FOREIGN_KEY_CHECKS` session flag (`true` = enforcement enabled).
The flag is not transactional: rollback does not restore it. -/
structure Conn where
  db : DB
  fkChecks : Bool
deriving DecidableEq

/-- `isActiveWisp` probes the wisps relation for the ID.
Modelled from the spec: the Go method `DoltStore.isActiveWisp` is not
under `src/`; the spec says renaming classifies the old ID as wisp or
issue "by probing the wisps relation", and the tests in
`rename_test.go` use it as exactly that membership probe. -/
def isActiveWisp (db : DB) (id : Str) : Bool :=
  db.wisps.any fun r => decide (r.id = id)

/-- `UPDATE t SET <f applied> WHERE get row = key`: rewrite exactly the
rows whose `get` column equals `key` by `f`. -/
def mapUpd (get : α → Str) (f : α → α) (key : Str) (l : List α) : List α :=
  l.map fun r => if get r = key then f r else r

/-- The SET clause of the primary-row update of the rename cascade:
`SET id = newID, title = ..., description = ..., design = ...,
acceptance_criteria = ..., notes = ..., updated_at = now`. -/
def setIssueFields (newID : Str) (issue : Issue) (now : Nat) (_r : IssueRow) : IssueRow :=
  { id := newID
    title := issue.title
    description := issue.description
    design := issue.design
    acceptance_criteria := issue.acceptance_criteria
    notes := issue.notes
    updated_at := now }

/-- The row inserted by
`INSERT INTO events (issue_id, event_type, actor, old_value, new_value)
VALUES (?, 'renamed', ?, ?, ?)`. -/
def renameEventRow (newID oldID actor : Str) : EventRow :=
  { issue_id := newID
    event_type := "renamed".toList
    actor := actor
    old_value := oldID
    new_value := newID }

/-- The committed database state of a successful regular-issue rename:
each field records the effect of its SQL statement (the two
`dependencies` and `wisp_dependencies` column updates compose in
execution order, and the `renamed` event is appended to `events`). -/
def issueCascadeDB (db : DB) (oldID newID : Str) (issue : Issue) (actor : Str)
    (now : Nat) : DB :=
  { issues := mapUpd IssueRow.id (setIssueFields newID issue now) oldID db.issues
    wisps := db.wisps
    dependencies :=
      mapUpd DepRow.depends_on_id (fun r => { r with depends_on_id := newID }) oldID
        (mapUpd DepRow.issue_id (fun r => { r with issue_id := newID }) oldID db.dependencies)
    events :=
      mapUpd EventRow.issue_id (fun r => { r with issue_id := newID }) oldID db.events
        ++ [renameEventRow newID oldID actor]
    labels := mapUpd RefRow.issue_id (fun r => { r with issue_id := newID }) oldID db.labels
    comments := mapUpd RefRow.issue_id (fun r => { r with issue_id := newID }) oldID db.comments
    issue_snapshots :=
      mapUpd RefRow.issue_id (fun r => { r with issue_id := newID }) oldID db.issue_snapshots
    compaction_snapshots :=
      mapUpd RefRow.issue_id (fun r => { r with issue_id := newID }) oldID db.compaction_snapshots
    child_counters :=
      mapUpd CounterRow.parent_id (fun r => { r with parent_id := newID }) oldID db.child_counters
    wisp_dependencies :=
      mapUpd DepRow.depends_on_id (fun r => { r with depends_on_id := newID }) oldID
        (mapUpd DepRow.issue_id (fun r => { r with issue_id := newID }) oldID db.wisp_dependencies)
    wisp_events :=
      mapUpd EventRow.issue_id (fun r => { r with issue_id := newID }) oldID db.wisp_events
    wisp_labels := mapUpd RefRow.issue_id (fun r => { r with issue_id := newID }) oldID db.wisp_labels
    wisp_comments := mapUpd RefRow.issue_id (fun r => { r with issue_id := newID }) oldID db.wisp_comments }

/-- The committed database state of a successful wisp rename: only the
wisp-side tables are touched, and the `renamed` event is appended to
`wisp_events`. -/
def wispCascadeDB (db : DB) (oldID newID : Str) (issue : Issue) (actor : Str)
    (now : Nat) : DB :=
  { issues := db.issues
    wisps := mapUpd IssueRow.id (setIssueFields newID issue now) oldID db.wisps
    dependencies := db.dependencies
    events := db.events
    labels := db.labels
    comments := db.comments
    issue_snapshots := db.issue_snapshots
    compaction_snapshots := db.compaction_snapshots
    child_counters := db.child_counters
    wisp_dependencies :=
      mapUpd DepRow.depends_on_id (fun r => { r with depends_on_id := newID }) oldID
        (mapUpd DepRow.issue_id (fun r => { r with issue_id := newID }) oldID db.wisp_dependencies)
    wisp_events :=
      mapUpd EventRow.issue_id (fun r => { r with issue_id := newID }) oldID db.wisp_events
        ++ [renameEventRow newID oldID actor]
    wisp_labels := mapUpd RefRow.issue_id (fun r => { r with issue_id := newID }) oldID db.wisp_labels
    wisp_comments := mapUpd RefRow.issue_id (fun r => { r with issue_id := newID }) oldID db.wisp_comments }

/-- `updateIssueID`: the regular-issue branch of the rename cascade.
Statement numbering for the oracle: 0 is the primary `UPDATE issues`,
1–2 both columns of `dependencies`, 3 `events`, 4 `labels`,
5 `comments`, 6 `issue_snapshots`, 7 `compaction_snapshots`,
8 `child_counters`, 9–10 both columns of `wisp_dependencies`,
11 `wisp_events`, 12 `wisp_labels`, 13 `wisp_comments`, 14 the
`renamed` event insert.  A failing statement aborts with its error and
the caller rolls the transaction back, so only the final state of a
fully successful run is ever committed; the intermediate
partially-updated transaction states are therefore collapsed, and the
error checks are hoisted in statement order before the one committed
state, in which each field records its statement's effect (the two
`dependencies` column updates compose in execution order).  The
zero-rows-affected check on statement 0 reads the pre-update row
count. -/
def updateIssueID (o : Oracle) (db : DB) (oldID newID : Str) (issue : Issue)
    (actor : Str) (now : Nat) : Except DbErr DB :=
  if ¬ o.stmtOk 0 then .error (.stmtFailed 0)
  else if db.issues.countP (fun r => decide (r.id = oldID)) = 0 then .error (.notFound oldID)
  else if ¬ o.stmtOk 1 then .error (.stmtFailed 1)
  else if ¬ o.stmtOk 2 then .error (.stmtFailed 2)
  else if ¬ o.stmtOk 3 then .error (.stmtFailed 3)
  else if ¬ o.stmtOk 4 then .error (.stmtFailed 4)
  else if ¬ o.stmtOk 5 then .error (.stmtFailed 5)
  else if ¬ o.stmtOk 6 then .error (.stmtFailed 6)
  else if ¬ o.stmtOk 7 then .error (.stmtFailed 7)
  else if ¬ o.stmtOk 8 then .error (.stmtFailed 8)
  else if ¬ o.stmtOk 9 then .error (.stmtFailed 9)
  else if ¬ o.stmtOk 10 then .error (.stmtFailed 10)
  else if ¬ o.stmtOk 11 then .error (.stmtFailed 11)
  else if ¬ o.stmtOk 12 then .error (.stmtFailed 12)
  else if ¬ o.stmtOk 13 then .error (.stmtFailed 13)
  else if ¬ o.stmtOk 14 then .error (.stmtFailed 14)
  else .ok (issueCascadeDB db oldID newID issue actor now)

/-- `updateWispID`: the wisp branch of the rename cascade.  Statement
numbering: 0 primary `UPDATE wisps`, 1–2 both columns of
`wisp_dependencies`, 3 `wisp_events`, 4 `wisp_labels`,
5 `wisp_comments`, 6 the `renamed` insert into `wisp_events`.  Each
statement rewrites one column of one table; only the wisp-side tables
are touched. -/
def updateWispID (o : Oracle) (db : DB) (oldID newID : Str) (issue : Issue)
    (actor : Str) (now : Nat) : Except DbErr DB :=
  if ¬ o.stmtOk 0 then .error (.stmtFailed 0)
  else if db.wisps.countP (fun r => decide (r.id = oldID)) = 0 then .error (.notFound oldID)
  else if ¬ o.stmtOk 1 then .error (.stmtFailed 1)
  else if ¬ o.stmtOk 2 then .error (.stmtFailed 2)
  else if ¬ o.stmtOk 3 then .error (.stmtFailed 3)
  else if ¬ o.stmtOk 4 then .error (.stmtFailed 4)
  else if ¬ o.stmtOk 5 then .error (.stmtFailed 5)
  else if ¬ o.stmtOk 6 then .error (.stmtFailed 6)
  else .ok (wispCascadeDB db oldID newID issue actor now)

/-- `UpdateIssueID`: top-level rename.  Mirrors the Go control flow:
classify the old ID via `isActiveWisp`; `BeginTx`; disable
`FOREIGN_KEY_CHECKS` (a session-scoped setting, so failures and
rollback leave it wherever it last was set); register the deferred
re-enable; run the branch cascade; on cascade error the deferred
re-enable fires (inside the still-live transaction) and the deferred
rollback discards the working state; otherwise re-enable inline,
then commit.  After a successful commit the deferred re-enable is a
no-op (`ErrTxDone`), and a failed commit also discards the working
state while keeping the already re-enabled flag. -/
def UpdateIssueID (o : Oracle) (conn : Conn) (oldID newID : Str) (issue : Issue)
    (actor : Str) (now : Nat) : Except DbErr Unit × Conn :=
  let isWisp := isActiveWisp conn.db oldID
  if ¬ o.beginOk then (.error .beginFailed, conn) else
  if ¬ o.setFK0Ok then (.error .setFKFailed, conn) else
  let cascade := if isWisp then updateWispID o conn.db oldID newID issue actor now
                 else updateIssueID o conn.db oldID newID issue actor now
  match cascade with
  | .error e =>
      (.error e, { conn with fkChecks := if o.setFK1DeferOk then true else false })
  | .ok db' =>
      if ¬ o.setFK1InlineOk then
        (.error .setFKFailed, { conn with fkChecks := if o.setFK1DeferOk then true else false })
      else if ¬ o.commitOk then
        (.error .commitFailed, { conn with fkChecks := true })
      else
        (.ok (), { db := db', fkChecks := true })

/-! ## Prefix renaming: MySQL LIKE semantics (`RenameDependencyPrefix`) -/

/-- MySQL `LIKE` pattern matching: `%` matches any sequence of
characters (the recursion tries every split point), `_` matches any
single character, a backslash escapes the following pattern character,
and every other character matches itself.  The whole string must be
consumed (the SQL predicate is anchored). -/
def likeMatch : Str → Str → Bool
  | [], s => s.isEmpty
  | p :: ps, s =>
    if p = '%' then
      (List.range (s.length + 1)).any fun k => likeMatch ps (s.drop k)
    else if p = '\\' then
      match ps, s with
      | q :: ps2, c :: s2 => decide (c = q) && likeMatch ps2 s2
      | _, _ => false
    else if p = '_' then
      match s with
      | [] => false
      | _ :: s2 => likeMatch ps s2
    else
      match s with
      | [] => false
      | c :: s2 => decide (c = p) && likeMatch ps s2

/-- The source method `RenameDependencyPrefix` (named with a `Tx`
suffix here): inside one transaction it runs
`UPDATE dependencies SET issue_id = CONCAT(?, SUBSTRING(issue_id, LENGTH(?) + 1))
 WHERE issue_id LIKE CONCAT(?, '%')` with `(newP, oldP, oldP)` and then
the same statement for the `depends_on_id` column.  `SUBSTRING(s, n+1)`
drops the first `n` characters, and the `WHERE` clause interprets
`oldP` as a `LIKE` pattern (its wildcard characters are not escaped).
Only the effect of a successful (committed) run is modelled; a failed
statement rolls the whole transaction back, leaving the table as it
was. -/
def RenameDependencyPrefixTx (oldP newP : Str) (deps : List DepRow) : List DepRow :=
  let deps1 := deps.map fun r =>
    if likeMatch (oldP ++ ['%']) r.issue_id then
      { r with issue_id := newP ++ r.issue_id.drop oldP.length } else r
  deps1.map fun r =>
    if likeMatch (oldP ++ ['%']) r.depends_on_id then
      { r with depends_on_id := newP ++ r.depends_on_id.drop oldP.length } else r

/-! ## Identifier classification (`isHashID`) -/

/-- ASCII lowercase letter test (`'a' <= c && c <= 'z'`). -/
def isLowerLetter (c : Char) : Bool := decide ('a' ≤ c) && decide (c ≤ 'z')

/-- ASCII digit test (`'0' <= c && c <= '9'`). -/
def isDigitCh (c : Char) : Bool := decide ('0' ≤ c) && decide (c ≤ '9')

/-- Lowercase alphanumeric test. -/
def isLowerAlnum (c : Char) : Bool := isLowerLetter c || isDigitCh c

/-- The characters after the last `'-'` of the identifier, or `none`
when the identifier contains no `'-'` (`strings.LastIndex(id, "-")`). -/
def afterLastDash : Str → Option Str
  | [] => none
  | c :: cs =>
    match afterLastDash cs with
    | some s => some s
    | none => if c = '-' then some cs else none

/-- Strip a dot-separated hierarchical tail: keep the characters before
the first `'.'`. -/
def takeUntilDot (s : Str) : Str := s.takeWhile fun c => decide (c ≠ '.')

/-- Leaf classification of the hash-ID heuristic: the leaf must be
non-empty and entirely lowercase alphanumeric; a leaf of five or more
characters qualifies outright, a shorter leaf only if it contains at
least one lowercase letter. -/
def hashLeafOK (leaf : Str) : Bool :=
  decide (leaf ≠ []) && leaf.all isLowerAlnum &&
    (decide (5 ≤ leaf.length) || leaf.any isLowerLetter)

/-- `isHashID` classifies an identifier as hash-based.
Modelled from the spec: the defining function lives in the doctor
package, which is not under `src/`; only its unit test
`TestIsHashID` is.  The model follows the spec's description (strip
the shared prefix at the separator, strip the dot-separated
hierarchical tail, classify the leaf) and is pinned on all twelve
vectors of `TestIsHashID`, which fix the one point where the spec's
wording and the test disagree: a leaf of five or more characters needs
no letter (`bd-12345` is hash-based). -/
def isHashID (id : Str) : Bool :=
  match afterLastDash id with
  | none => false
  | some suffix => hashLeafOK (takeUntilDot suffix)

/-- The classifier exactly as the claim (and spec §4.1) words it: after
prefix and tail stripping, the leaf is hash-based when it is (a) at
least five characters, all lowercase alphanumeric, with at least one
letter, or (b) under five characters, all lowercase alphanumeric and
non-empty, with at least one lowercase letter. -/
def hashIDClaimPred (id : Str) : Bool :=
  match afterLastDash id with
  | none => false
  | some suffix =>
    let leaf := takeUntilDot suffix
    (decide (5 ≤ leaf.length) && leaf.all isLowerAlnum && leaf.any isLowerLetter) ||
    (decide (leaf.length < 5) && decide (leaf ≠ []) && leaf.all isLowerAlnum &&
      leaf.any isLowerLetter)

/-- The amended classifier wording: clause (a) drops the
at-least-one-letter requirement (a leaf of five or more lowercase
alphanumeric characters is hash-based even if all digits); clause (b)
is unchanged. -/
def hashIDAmendedPred (id : Str) : Bool :=
  match afterLastDash id with
  | none => false
  | some suffix =>
    let leaf := takeUntilDot suffix
    (decide (5 ≤ leaf.length) && leaf.all isLowerAlnum) ||
    (decide (leaf.length < 5) && decide (leaf ≠ []) && leaf.all isLowerAlnum &&
      leaf.any isLowerLetter)

/-! ## Federation peers and credentials (`credentials.go`) -/

/-- A row of the `federation_peers` table. -/
structure PeerRow where
  name : Str
  remote_url : Str
  username : Str
  password_encrypted : Option Bytes
  sovereignty : Str
  last_sync : Option Nat
  updated_at : Nat
deriving DecidableEq

/-- Errors of the federation/credential subsystem. -/
inductive FedErr where
  | notFoundPeer : Str → FedErr
  | decryptFailed : FedErr
  | keyNotInitialized : FedErr
  | validationEmptyName : FedErr
  | validationNameTooLong : FedErr
  | validationNamePattern : FedErr
  | remoteAlreadyExists : FedErr
  | remoteFailed : FedErr
  | fnFailed : Nat → FedErr
deriving DecidableEq

/-- Whether an error is one of the three peer-name validation errors
(`validatePeerName`'s "cannot be empty" / "too long" / pattern
mismatch), as opposed to crypto, lookup, or remote errors. -/
def FedErr.isValidation : FedErr → Bool
  | .validationEmptyName => true
  | .validationNameTooLong => true
  | .validationNamePattern => true
  | _ => false

/-- `legacyEncryptionKey`: the old predictable key,
`SHA256(dbPath + "beads-federation-key-v1")`.  The hash itself is the
Go standard library's SHA-256, taken here as a parameter. -/
def legacyEncryptionKey (sha256 : Str → Bytes) (dbPath : Str) : Bytes :=
  sha256 (dbPath ++ "beads-federation-key-v1".toList)

/-- The first loop of `migrateCredentialKeys`: scan
`SELECT name, password_encrypted FROM federation_peers WHERE
password_encrypted IS NOT NULL AND LENGTH(password_encrypted) > 0`,
decrypt each password with the old key, and skip (continue) the rows
that fail to decrypt.  `dec` abstracts `decryptWithKey`. -/
def migrationEntries (dec : Bytes → Bytes → Option Str) (oldKey : Bytes)
    (peers : List PeerRow) : List (Str × Str) :=
  peers.filterMap fun p =>
    match p.password_encrypted with
    | none => none
    | some b => if b = [] then none else (dec b oldKey).map fun pt => (p.name, pt)

/-- `migrateCredentialKeys`: re-encrypt each collected entry with the
new key and write it back with
`UPDATE federation_peers SET password_encrypted = ? WHERE name = ?`.
`enc` abstracts `encryptWithKey` (whose fresh random nonce makes it
nondeterministic in Go; the claim only constrains which rows receive a
re-encryption of which plaintext). -/
def migrateCredentialKeys (dec : Bytes → Bytes → Option Str)
    (enc : Str → Bytes → Bytes) (oldKey newKey : Bytes)
    (peers : List PeerRow) : List PeerRow :=
  (migrationEntries dec oldKey peers).foldl
    (fun acc e => acc.map fun q =>
      if q.name = e.1 then { q with password_encrypted := some (enc e.2 newKey) } else q)
    peers

/-- `decryptPassword`: empty ciphertext decrypts to the empty string
with no error; otherwise the store's credential key must be
initialized and `decryptWithKey` must succeed. -/
def decryptPassword (dec : Bytes → Bytes → Option Str) (key : Option Bytes)
    (encrypted : Bytes) : Except FedErr Str :=
  if encrypted = [] then .ok []
  else
    match key with
    | none => .error .keyNotInitialized
    | some k =>
      match dec encrypted k with
      | none => .error .decryptFailed
      | some pw => .ok pw

/-- `encryptPassword`: the empty password encrypts to a nil ciphertext
with no error; otherwise the store's credential key must be
initialized. -/
def encryptPassword (enc : Str → Bytes → Bytes) (key : Option Bytes)
    (password : Str) : Except FedErr (Option Bytes) :=
  if password = [] then .ok none
  else
    match key with
    | none => .error .keyNotInitialized
    | some k => .ok (some (enc password k))

/-- The decrypted peer view returned by `GetFederationPeer`. -/
structure Peer where
  name : Str
  remote_url : Str
  username : Str
  password : Str
  sovereignty : Str
  last_sync : Option Nat
deriving DecidableEq

/-- `GetFederationPeer`: select the row by name (`ErrNotFound` when
absent) and decrypt its password when the stored ciphertext is
non-empty. -/
def GetFederationPeer (dec : Bytes → Bytes → Option Str) (key : Option Bytes)
    (peers : List PeerRow) (name : Str) : Except FedErr Peer :=
  match peers.find? (fun p => decide (p.name = name)) with
  | none => .error (.notFoundPeer name)
  | some row =>
    let base : Peer :=
      { name := row.name
        remote_url := row.remote_url
        username := row.username
        password := []
        sovereignty := row.sovereignty
        last_sync := row.last_sync }
    match row.password_encrypted with
    | none => .ok base
    | some b =>
      if b = [] then .ok base
      else
        match decryptPassword dec key b with
        | .error e => .error e
        | .ok pw => .ok { base with password := pw }

/-- Process state seen by `withPeerCredentials`: the peers table plus
the two process-global environment variables `DOLT_REMOTE_USER` and
`DOLT_REMOTE_PASSWORD` (`none` = unset). -/
structure FedState where
  peers : List PeerRow
  envUser : Option Str
  envPassword : Option Str
deriving DecidableEq

/-- `setFederationCredentials`: set `DOLT_REMOTE_USER` /
`DOLT_REMOTE_PASSWORD`, each only when non-empty. -/
def setFederationCredentials (st : FedState) (username password : Str) : FedState :=
  let st1 := if username ≠ [] then { st with envUser := some username } else st
  if password ≠ [] then { st1 with envPassword := some password } else st1

/-- The cleanup closure returned by `setFederationCredentials`:
unconditionally unset both environment variables. -/
def clearFederationCredentials (st : FedState) : FedState :=
  { st with envUser := none, envPassword := none }

/-- `updatePeerLastSync`:
`UPDATE federation_peers SET last_sync = CURRENT_TIMESTAMP WHERE name = ?`. -/
def updatePeerLastSync (now : Nat) (peers : List PeerRow) (name : Str) : List PeerRow :=
  peers.map fun q => if q.name = name then { q with last_sync := some now } else q

/-- `withPeerCredentials`: look the peer up (propagating the error),
take the process-global mutex (the embedding is single-threaded, so
the lock is implicit), set the environment variables when the peer has
any credentials and register their cleanup, run the callback (whose
outcome is the `fnErr` parameter; its external effects are outside the
store state), update `last_sync` when the callback succeeded, and then
let the deferred cleanup unset both variables before returning. -/
def withPeerCredentials (dec : Bytes → Bytes → Option Str) (key : Option Bytes)
    (now : Nat) (st : FedState) (peerName : Str) (fnErr : Option FedErr) :
    Except FedErr Unit × FedState :=
  match GetFederationPeer dec key st.peers peerName with
  | .error e => (.error e, st)
  | .ok peer =>
    let st1 := if peer.username ≠ [] ∨ peer.password ≠ [] then
        setFederationCredentials st peer.username peer.password else st
    let st2 := match fnErr with
      | none => { st1 with peers := updatePeerLastSync now st1.peers peerName }
      | some _ => st1
    let st3 := if peer.username ≠ [] ∨ peer.password ≠ [] then
        clearFederationCredentials st2 else st2
    (match fnErr with | none => .ok () | some e => .error e, st3)

/-! ## Peer registration and removal -/

/-- ASCII uppercase letter test. -/
def isUpperLetter (c : Char) : Bool := decide ('A' ≤ c) && decide (c ≤ 'Z')

/-- ASCII letter test. -/
def isAsciiLetter (c : Char) : Bool := isLowerLetter c || isUpperLetter c

/-- The regular expression of `validPeerNameRegex`,
`^[a-zA-Z][a-zA-Z0-9_-]*$`: a leading ASCII letter followed by ASCII
letters, digits, underscores, and hyphens. -/
def peerNameMatches (name : Str) : Bool :=
  match name with
  | [] => false
  | c :: cs =>
    isAsciiLetter c &&
      cs.all fun d => isAsciiLetter d || isDigitCh d || decide (d = '_') || decide (d = '-')

/-- `validatePeerName`: empty names, names longer than 64 characters,
and names outside the pattern are rejected, in that order. -/
def validatePeerName (name : Str) : Option FedErr :=
  if name = [] then some .validationEmptyName
  else if 64 < name.length then some .validationNameTooLong
  else if ¬ peerNameMatches name then some .validationNamePattern
  else none

/-- The argument of `AddFederationPeer` (`storage.FederationPeer`
input fields). -/
structure PeerInput where
  name : Str
  remote_url : Str
  username : Str
  password : Str
  sovereignty : Str
deriving DecidableEq

/-- The peers table together with the underlying engine's remote
registry (name/url pairs). -/
structure EngineState where
  peers : List PeerRow
  remotes : List (Str × Str)
deriving DecidableEq

/-- The upsert of `AddFederationPeer`:
`INSERT INTO federation_peers (name, remote_url, username,
password_encrypted, sovereignty) VALUES (...) ON DUPLICATE KEY UPDATE
remote_url, username, password_encrypted, sovereignty,
updated_at = CURRENT_TIMESTAMP` (name is the primary key). -/
def upsertPeer (peers : List PeerRow) (peer : PeerInput) (pwd : Option Bytes)
    (now : Nat) : List PeerRow :=
  if peers.any (fun q => decide (q.name = peer.name)) then
    peers.map fun q =>
      if q.name = peer.name then
        { q with remote_url := peer.remote_url
                 username := peer.username
                 password_encrypted := pwd
                 sovereignty := peer.sovereignty
                 updated_at := now }
      else q
  else
    peers ++ [{ name := peer.name
                remote_url := peer.remote_url
                username := peer.username
                password_encrypted := pwd
                sovereignty := peer.sovereignty
                last_sync := none
                updated_at := now }]

/-- `AddRemote` — Modelled from the spec: the underlying engine's
remote registry is outside the repository (`dolt remote add`); the
spec specifies it only through this boundary.  Registering an existing
name fails with an "already exists" error; `remoteOk = false` stands
for any other transport failure. -/
def AddRemote (remoteOk : Bool) (remotes : List (Str × Str)) (name url : Str) :
    Option FedErr × List (Str × Str) :=
  if ¬ remoteOk then (some .remoteFailed, remotes)
  else if remotes.any (fun r => decide (r.1 = name)) then (some .remoteAlreadyExists, remotes)
  else (none, remotes ++ [(name, url)])

/-- `RemoveRemote` — Modelled from the spec: best-effort removal of the
engine remote; removing an absent remote reports an error that callers
ignore. -/
def RemoveRemote (remotes : List (Str × Str)) (name : Str) :
    Option FedErr × List (Str × Str) :=
  if remotes.any (fun r => decide (r.1 = name)) then
    (none, remotes.filter fun r => decide (r.1 ≠ name))
  else (some .remoteFailed, remotes)

/-- `AddFederationPeer`: validate the name, encrypt the password when
non-empty, upsert the peers row, and add the engine remote, ignoring
only its "already exists" error. -/
def AddFederationPeer (enc : Str → Bytes → Bytes) (key : Option Bytes)
    (remoteOk : Bool) (now : Nat) (st : EngineState) (peer : PeerInput) :
    Except FedErr Unit × EngineState :=
  match validatePeerName peer.name with
  | some e => (.error e, st)
  | none =>
    match (if peer.password ≠ [] then encryptPassword enc key peer.password else .ok none) with
    | .error e => (.error e, st)
    | .ok pwd =>
      let peers2 := upsertPeer st.peers peer pwd now
      match AddRemote remoteOk st.remotes peer.name peer.remote_url with
      | (some .remoteAlreadyExists, remotes2) => (.ok (), { peers := peers2, remotes := remotes2 })
      | (some e, remotes2) => (.error e, { peers := peers2, remotes := remotes2 })
      | (none, remotes2) => (.ok (), { peers := peers2, remotes := remotes2 })

/-- `RemoveFederationPeer`: delete the credentials row
(`DELETE FROM federation_peers WHERE name = ?`); the affected-row
count is used only for logging, the engine remote is removed
best-effort with its error discarded, and the operation reports
success. -/
def RemoveFederationPeer (st : EngineState) (name : Str) :
    Except FedErr Unit × EngineState :=
  let peers2 := st.peers.filter fun p => decide (p.name ≠ name)
  let rem := RemoveRemote st.remotes name
  (.ok (), { peers := peers2, remotes := rem.2 })

/-! ## AES-GCM wrapping structure (`encryptWithKey` / `decryptWithKey`)

The Go functions call the standard library's AES-256-GCM.  The block
cipher `blockE : key → block → block` and the `GHASH` authenticator
`ghash : hashKey → data → tag` are parameters of this embedding: the
wrapping structure — `nonce || ciphertext || tag`, CTR keystream
applied by XOR in both directions, tag recomputation and comparison on
decrypt, the 12-byte nonce bound and the key-size check of
`aes.NewCipher` — is modelled concretely. -/

/-- Pointwise XOR of two byte strings (truncating to the shorter). -/
def xorBytes (a b : Bytes) : Bytes := List.zipWith (fun x y => Nat.xor x y) a b

/-- Big-endian 4-byte encoding of a 32-bit counter. -/
def be32 (j : Nat) : Bytes :=
  [j / 16777216 % 256, j / 65536 % 256, j / 256 % 256, j % 256]

/-- The GCM-CTR keystream for a 12-byte nonce: encryptions of the
counter blocks `nonce || be32 2`, `nonce || be32 3`, …, truncated to
`n` bytes (counter 1 is reserved for the tag mask). -/
def keystream (blockE : Bytes → Bytes → Bytes) (key nonce : Bytes) (n : Nat) : Bytes :=
  (((List.range (n / 16 + 1)).map fun i => blockE key (nonce ++ be32 (2 + i))).flatten).take n

/-- `gcm.Seal(nonce, nonce, plaintext, nil)`: `nonce || ciphertext ||
tag` with `ciphertext = keystream XOR plaintext` and
`tag = E_K(nonce || be32 1) XOR GHASH_H(ciphertext)` where
`H = E_K(0^16)`. -/
def gcmSeal (blockE : Bytes → Bytes → Bytes) (ghash : Bytes → Bytes → Bytes)
    (key nonce pt : Bytes) : Bytes :=
  let ct := xorBytes (keystream blockE key nonce pt.length) pt
  let tag := xorBytes (blockE key (nonce ++ be32 1)) (ghash (blockE key (List.replicate 16 0)) ct)
  nonce ++ ct ++ tag

/-- Bytes of a Go string (ASCII code points in this model). -/
def strToBytes (s : Str) : Bytes := s.map Char.toNat

/-- Go `string(bytes)` (inverse of `strToBytes` on valid code points). -/
def bytesToStr (b : Bytes) : Str := b.map Char.ofNat

/-- Errors of the crypto layer. -/
inductive CryptoErr where
  | invalidKeySize : CryptoErr
  | tooShort : CryptoErr
  | authFailed : CryptoErr
deriving DecidableEq

/-- `encryptWithKey`: `aes.NewCipher` accepts only 16-, 24-, or
32-byte keys; then GCM-seal under a fresh 12-byte nonce (the nonce is
a parameter of the model, standing for the random draw). -/
def encryptWithKey (blockE : Bytes → Bytes → Bytes) (ghash : Bytes → Bytes → Bytes)
    (nonce : Bytes) (plaintext : Str) (key : Bytes) : Except CryptoErr Bytes :=
  if ¬ (key.length = 16 ∨ key.length = 24 ∨ key.length = 32) then .error .invalidKeySize
  else .ok (gcmSeal blockE ghash key nonce (strToBytes plaintext))

/-- `decryptWithKey`: reject inputs shorter than the 12-byte nonce
("ciphertext too short"); then `gcm.Open`: split off the 16-byte tag
(failing when the remainder is shorter than the tag), recompute the
tag over the ciphertext, compare, and XOR the keystream back. -/
def decryptWithKey (blockE : Bytes → Bytes → Bytes) (ghash : Bytes → Bytes → Bytes)
    (encrypted : Bytes) (key : Bytes) : Except CryptoErr Str :=
  if ¬ (key.length = 16 ∨ key.length = 24 ∨ key.length = 32) then .error .invalidKeySize
  else if encrypted.length < 12 then .error .tooShort
  else
    let nonce := encrypted.take 12
    let rest := encrypted.drop 12
    if rest.length < 16 then .error .authFailed
    else
      let ct := rest.take (rest.length - 16)
      let tag := rest.drop (rest.length - 16)
      let expected := xorBytes (blockE key (nonce ++ be32 1))
        (ghash (blockE key (List.replicate 16 0)) ct)
      if expected = tag then
        .ok (bytesToStr (xorBytes (keystream blockE key nonce ct.length) ct))
      else .error .authFailed

/-! ## Generic lemmas about column updates -/

theorem mem_mapUpd_get_ne {α : Type} (get : α → Str) (f : α → α) (key v : Str)
    (l : List α) (hf : ∀ r, get (f r) = v) (hne : v ≠ key) :
    ∀ x ∈ mapUpd get f key l, get x ≠ key := by
  intro x hx
  rcases List.mem_map.mp hx with ⟨r, _, rfl⟩
  by_cases h : get r = key
  · simp only [h, if_pos]
    rw [hf]
    exact hne
  · simp only [h, if_neg, not_false_iff]
    exact h

theorem mem_mapUpd_preserve {α : Type} (get : α → Str) (f : α → α) (key : Str)
    (l : List α) (P : α → Prop) (hf : ∀ r, P r → P (f r)) (hl : ∀ x ∈ l, P x) :
    ∀ x ∈ mapUpd get f key l, P x := by
  intro x hx
  rcases List.mem_map.mp hx with ⟨r, hr, rfl⟩
  by_cases h : get r = key
  · simp only [h, if_pos]
    exact hf r (hl r hr)
  · simp only [h, if_neg, not_false_iff]
    exact hl r hr

theorem countP_mapUpd_pres {α : Type} (get : α → Str) (f : α → α) (key : Str)
    (l : List α) (p : α → Bool) (hf : ∀ r, p (f r) = p r) :
    (mapUpd get f key l).countP p = l.countP p := by
  induction l with
  | nil => rfl
  | cons a l ih =>
    simp only [mapUpd, List.map_cons, List.countP_cons] at *
    rw [ih]
    by_cases h : get a = key
    · simp only [h, if_pos, hf]
    · simp only [h, if_neg, not_false_iff]

theorem countP_mapUpd_count {α : Type} (get : α → Str) (f : α → α) (key v : Str)
    (l : List α) (hf : ∀ r, get (f r) = v) (hne : v ≠ key) :
    (mapUpd get f key l).countP (fun x => decide (get x = v))
      = l.countP (fun x => decide (get x = key)) + l.countP (fun x => decide (get x = v)) := by
  induction l with
  | nil => rfl
  | cons a l ih =>
    simp only [mapUpd, List.map_cons, List.countP_cons] at *
    rw [ih]
    by_cases h : get a = key
    · have hv : ¬ get a = v := by
        rw [h]
        exact fun hvv => hne hvv.symm
      simp [h, hf, hv]
      rw [if_neg fun hkv => hne hkv.symm]
      omega
    · simp [h]
      omega

/-! ## Rename cascade postconditions -/

/-- Number of `renamed` audit events with the given
`(old_value, new_value)` pair in an events table. -/
def renamedCount (events : List EventRow) (oldID newID : Str) : Nat :=
  events.countP fun e =>
    decide (e.event_type = "renamed".toList ∧ e.old_value = oldID ∧ e.new_value = newID)

/-- No row of the tables cascaded for a regular-issue rename
references `x`: `issues.id`, both columns of `dependencies`,
`events`, `labels`, `comments`, `issue_snapshots`,
`compaction_snapshots`, `child_counters.parent_id`, both columns of
`wisp_dependencies`, `wisp_events`, `wisp_labels`, `wisp_comments`. -/
def noIssueRefs (db : DB) (x : Str) : Prop :=
  (∀ r ∈ db.issues, r.id ≠ x) ∧
  (∀ r ∈ db.dependencies, r.issue_id ≠ x ∧ r.depends_on_id ≠ x) ∧
  (∀ r ∈ db.events, r.issue_id ≠ x) ∧
  (∀ r ∈ db.labels, r.issue_id ≠ x) ∧
  (∀ r ∈ db.comments, r.issue_id ≠ x) ∧
  (∀ r ∈ db.issue_snapshots, r.issue_id ≠ x) ∧
  (∀ r ∈ db.compaction_snapshots, r.issue_id ≠ x) ∧
  (∀ r ∈ db.child_counters, r.parent_id ≠ x) ∧
  (∀ r ∈ db.wisp_dependencies, r.issue_id ≠ x ∧ r.depends_on_id ≠ x) ∧
  (∀ r ∈ db.wisp_events, r.issue_id ≠ x) ∧
  (∀ r ∈ db.wisp_labels, r.issue_id ≠ x) ∧
  (∀ r ∈ db.wisp_comments, r.issue_id ≠ x)

/-- No row of the wisp-side tables references `x`. -/
def noWispRefs (db : DB) (x : Str) : Prop :=
  (∀ r ∈ db.wisps, r.id ≠ x) ∧
  (∀ r ∈ db.wisp_dependencies, r.issue_id ≠ x ∧ r.depends_on_id ≠ x) ∧
  (∀ r ∈ db.wisp_events, r.issue_id ≠ x) ∧
  (∀ r ∈ db.wisp_labels, r.issue_id ≠ x) ∧
  (∀ r ∈ db.wisp_comments, r.issue_id ≠ x)

/-- Postcondition of a successful regular-issue rename: no cascaded
table references the old ID, exactly one `issues` row carries the new
ID, and exactly one `renamed` event records the pair. -/
def issueRenamePost (db' : DB) (oldID newID : Str) : Prop :=
  noIssueRefs db' oldID ∧
  db'.issues.countP (fun r => decide (r.id = newID)) = 1 ∧
  renamedCount db'.events oldID newID = 1

/-- Postcondition of a successful wisp rename: no wisp-side table
references the old ID, exactly one `wisps` row carries the new ID,
exactly one `renamed` event sits in `wisp_events`, and the issue-side
tables are untouched (only the wisp-side tables are cascaded). -/
def wispRenamePost (db db' : DB) (oldID newID : Str) : Prop :=
  noWispRefs db' oldID ∧
  db'.wisps.countP (fun r => decide (r.id = newID)) = 1 ∧
  renamedCount db'.wisp_events oldID newID = 1 ∧
  db'.issues = db.issues ∧
  db'.dependencies = db.dependencies ∧
  db'.events = db.events ∧
  db'.labels = db.labels ∧
  db'.comments = db.comments ∧
  db'.issue_snapshots = db.issue_snapshots ∧
  db'.compaction_snapshots = db.compaction_snapshots ∧
  db'.child_counters = db.child_counters

/-- C2.  On every exit path of `UpdateIssueID` — early error, cascade
failure followed by rollback, failed inline re-enable, failed commit,
or success — the connection-scoped `FOREIGN_KEY_CHECKS` flag is
enabled when the operation returns, provided the deferred
`SET FOREIGN_KEY_CHECKS = 1` statement itself executes (the inline
statement may fail).  Rollback does not restore the flag; the code
restores it explicitly. -/
theorem UpdateIssueID_restores_fk (o : Oracle) (conn : Conn) (oldID newID : Str)
    (issue : Issue) (actor : Str) (now : Nat)
    (hdef : o.setFK1DeferOk = true) (hfk : conn.fkChecks = true) :
    (UpdateIssueID o conn oldID newID issue actor now).2.fkChecks = true := by
  unfold UpdateIssueID
  repeat' split
  all_goals try simp_all
  all_goals generalize (if isActiveWisp conn.db oldID = true then updateWispID o conn.db oldID newID issue actor now else updateIssueID o conn.db oldID newID issue actor now) = c
  all_goals cases c <;> rfl

/-- An all-success oracle (used by concrete instantiations). -/
def oracleAllOk : Oracle :=
  { beginOk := true
    setFK0Ok := true
    stmtOk := fun _ => true
    setFK1InlineOk := true
    setFK1DeferOk := true
    commitOk := true }

/-- The empty database. -/
def emptyDB : DB :=
  { issues := []
    wisps := []
    dependencies := []
    events := []
    labels := []
    comments := []
    issue_snapshots := []
    compaction_snapshots := []
    child_counters := []
    wisp_dependencies := []
    wisp_events := []
    wisp_labels := []
    wisp_comments := [] }

/-- An issue value with empty text fields. -/
def issue0 : Issue :=
  { title := []
    description := []
    design := []
    acceptance_criteria := []
    notes := [] }

/-- Witness for `UpdateIssueID_restores_fk` at a concrete connection,
oracle, and arguments. -/
theorem UpdateIssueID_restores_fk_witness :
    (UpdateIssueID oracleAllOk { db := emptyDB, fkChecks := true }
      "x".toList "y".toList issue0 "actor".toList 0).2.fkChecks = true :=
  UpdateIssueID_restores_fk oracleAllOk { db := emptyDB, fkChecks := true }
    "x".toList "y".toList issue0 "actor".toList 0 rfl rfl

/-- C3.  When the old ID is present in neither `issues` nor `wisps`,
`UpdateIssueID` fails with the not-found error naming the old ID (the
primary `UPDATE` affects zero rows) and the transaction rollback
leaves the committed database state unchanged. -/
theorem UpdateIssueID_missing_id_notFound (o : Oracle) (conn : Conn)
    (oldID newID : Str) (issue : Issue) (actor : Str) (now : Nat)
    (hb : o.beginOk = true) (hs0 : o.setFK0Ok = true) (h0 : o.stmtOk 0 = true)
    (hiss : ∀ r ∈ conn.db.issues, r.id ≠ oldID)
    (hwisp : ∀ r ∈ conn.db.wisps, r.id ≠ oldID) :
    (UpdateIssueID o conn oldID newID issue actor now).1 = .error (.notFound oldID) ∧
    (UpdateIssueID o conn oldID newID issue actor now).2.db = conn.db := by
  have hw : isActiveWisp conn.db oldID = false := by
    simp only [isActiveWisp, List.any_eq_false, decide_eq_true_eq]
    exact hwisp
  have hm : conn.db.issues.countP (fun r => decide (r.id = oldID)) = 0 := by
    rw [List.countP_eq_zero]
    intro a ha
    simpa using hiss a ha
  have hc : updateIssueID o conn.db oldID newID issue actor now
      = .error (.notFound oldID) := by
    unfold updateIssueID
    simp [h0, hm]
  unfold UpdateIssueID
  simp [hb, hs0, hw, hc]

/-- Witness for `UpdateIssueID_missing_id_notFound` on an empty
database. -/
theorem UpdateIssueID_missing_id_notFound_witness :
    (UpdateIssueID oracleAllOk { db := emptyDB, fkChecks := true }
      "x".toList "y".toList issue0 "actor".toList 0).1
        = .error (.notFound "x".toList) ∧
    (UpdateIssueID oracleAllOk { db := emptyDB, fkChecks := true }
      "x".toList "y".toList issue0 "actor".toList 0).2.db = emptyDB :=
  UpdateIssueID_missing_id_notFound oracleAllOk { db := emptyDB, fkChecks := true }
    "x".toList "y".toList issue0 "actor".toList 0 rfl rfl rfl
    (by simp [emptyDB]) (by simp [emptyDB])

set_option maxHeartbeats 1600000 in
theorem updateIssueID_ok_post (o : Oracle) (db db' : DB) (oldID newID : Str)
    (issue : Issue) (actor : Str) (now : Nat)
    (hne : oldID ≠ newID)
    (h1 : db.issues.countP (fun r => decide (r.id = oldID)) = 1)
    (hnew : db.issues.countP (fun r => decide (r.id = newID)) = 0)
    (hev : renamedCount db.events oldID newID = 0)
    (hok : updateIssueID o db oldID newID issue actor now = .ok db') :
    issueRenamePost db' oldID newID := by
  rw [updateIssueID] at hok
  cases c0 : o.stmtOk 0 <;> simp [c0, h1] at hok
  cases c1 : o.stmtOk 1 <;> simp [c1] at hok
  cases c2 : o.stmtOk 2 <;> simp [c2] at hok
  cases c3 : o.stmtOk 3 <;> simp [c3] at hok
  cases c4 : o.stmtOk 4 <;> simp [c4] at hok
  cases c5 : o.stmtOk 5 <;> simp [c5] at hok
  cases c6 : o.stmtOk 6 <;> simp [c6] at hok
  cases c7 : o.stmtOk 7 <;> simp [c7] at hok
  cases c8 : o.stmtOk 8 <;> simp [c8] at hok
  cases c9 : o.stmtOk 9 <;> simp [c9] at hok
  cases c10 : o.stmtOk 10 <;> simp [c10] at hok
  cases c11 : o.stmtOk 11 <;> simp [c11] at hok
  cases c12 : o.stmtOk 12 <;> simp [c12] at hok
  cases c13 : o.stmtOk 13 <;> simp [c13] at hok
  cases c14 : o.stmtOk 14 <;> simp [c14] at hok
  subst hok
  simp only [issueRenamePost, noIssueRefs, issueCascadeDB]
  refine ⟨⟨?_, ?_, ?_, ?_, ?_, ?_, ?_, ?_, ?_, ?_, ?_, ?_⟩, ?_, ?_⟩
  · exact mem_mapUpd_get_ne IssueRow.id (setIssueFields newID issue now) oldID newID
      db.issues (fun r => rfl) (Ne.symm hne)
  · intro r hr
    refine ⟨?_, ?_⟩
    · exact mem_mapUpd_preserve DepRow.depends_on_id
        (fun r => { r with depends_on_id := newID }) oldID _
        (fun x => x.issue_id ≠ oldID) (fun x hx => hx)
        (mem_mapUpd_get_ne DepRow.issue_id (fun r => { r with issue_id := newID })
          oldID newID db.dependencies (fun x => rfl) (Ne.symm hne)) r hr
    · exact mem_mapUpd_get_ne DepRow.depends_on_id
        (fun r => { r with depends_on_id := newID }) oldID newID _
        (fun x => rfl) (Ne.symm hne) r hr
  · intro r hr
    rcases List.mem_append.mp hr with h | h
    · exact mem_mapUpd_get_ne EventRow.issue_id (fun r => { r with issue_id := newID })
        oldID newID db.events (fun x => rfl) (Ne.symm hne) r h
    · rw [List.mem_singleton] at h
      subst h
      exact Ne.symm hne
  · exact mem_mapUpd_get_ne RefRow.issue_id (fun r => { r with issue_id := newID })
      oldID newID db.labels (fun x => rfl) (Ne.symm hne)
  · exact mem_mapUpd_get_ne RefRow.issue_id (fun r => { r with issue_id := newID })
      oldID newID db.comments (fun x => rfl) (Ne.symm hne)
  · exact mem_mapUpd_get_ne RefRow.issue_id (fun r => { r with issue_id := newID })
      oldID newID db.issue_snapshots (fun x => rfl) (Ne.symm hne)
  · exact mem_mapUpd_get_ne RefRow.issue_id (fun r => { r with issue_id := newID })
      oldID newID db.compaction_snapshots (fun x => rfl) (Ne.symm hne)
  · exact mem_mapUpd_get_ne CounterRow.parent_id (fun r => { r with parent_id := newID })
      oldID newID db.child_counters (fun x => rfl) (Ne.symm hne)
  · intro r hr
    refine ⟨?_, ?_⟩
    · exact mem_mapUpd_preserve DepRow.depends_on_id
        (fun r => { r with depends_on_id := newID }) oldID _
        (fun x => x.issue_id ≠ oldID) (fun x hx => hx)
        (mem_mapUpd_get_ne DepRow.issue_id (fun r => { r with issue_id := newID })
          oldID newID db.wisp_dependencies (fun x => rfl) (Ne.symm hne)) r hr
    · exact mem_mapUpd_get_ne DepRow.depends_on_id
        (fun r => { r with depends_on_id := newID }) oldID newID _
        (fun x => rfl) (Ne.symm hne) r hr
  · exact mem_mapUpd_get_ne EventRow.issue_id (fun r => { r with issue_id := newID })
      oldID newID db.wisp_events (fun x => rfl) (Ne.symm hne)
  · exact mem_mapUpd_get_ne RefRow.issue_id (fun r => { r with issue_id := newID })
      oldID newID db.wisp_labels (fun x => rfl) (Ne.symm hne)
  · exact mem_mapUpd_get_ne RefRow.issue_id (fun r => { r with issue_id := newID })
      oldID newID db.wisp_comments (fun x => rfl) (Ne.symm hne)
  · rw [countP_mapUpd_count IssueRow.id (setIssueFields newID issue now) oldID newID
      db.issues (fun r => rfl) (Ne.symm hne), h1, hnew]
  · unfold renamedCount at hev ⊢
    rw [List.countP_append,
      countP_mapUpd_pres EventRow.issue_id (fun r => { r with issue_id := newID }) oldID
        db.events
        (fun e => decide (e.event_type = "renamed".toList ∧ e.old_value = oldID ∧ e.new_value = newID))
        (fun r => rfl), hev]
    simp [renameEventRow]

set_option maxHeartbeats 1600000 in
theorem updateWispID_ok_post (o : Oracle) (db db' : DB) (oldID newID : Str)
    (issue : Issue) (actor : Str) (now : Nat)
    (hne : oldID ≠ newID)
    (h1 : db.wisps.countP (fun r => decide (r.id = oldID)) = 1)
    (hnew : db.wisps.countP (fun r => decide (r.id = newID)) = 0)
    (hev : renamedCount db.wisp_events oldID newID = 0)
    (hok : updateWispID o db oldID newID issue actor now = .ok db') :
    wispRenamePost db db' oldID newID := by
  rw [updateWispID] at hok
  cases c0 : o.stmtOk 0 <;> simp [c0, h1] at hok
  cases c1 : o.stmtOk 1 <;> simp [c1] at hok
  cases c2 : o.stmtOk 2 <;> simp [c2] at hok
  cases c3 : o.stmtOk 3 <;> simp [c3] at hok
  cases c4 : o.stmtOk 4 <;> simp [c4] at hok
  cases c5 : o.stmtOk 5 <;> simp [c5] at hok
  cases c6 : o.stmtOk 6 <;> simp [c6] at hok
  subst hok
  simp only [wispRenamePost, noWispRefs, wispCascadeDB]
  refine ⟨⟨?_, ?_, ?_, ?_, ?_⟩, ?_, ?_, trivial, trivial, trivial, trivial, trivial, trivial, trivial, trivial⟩
  · exact mem_mapUpd_get_ne IssueRow.id (setIssueFields newID issue now) oldID newID
      db.wisps (fun r => rfl) (Ne.symm hne)
  · intro r hr
    refine ⟨?_, ?_⟩
    · exact mem_mapUpd_preserve DepRow.depends_on_id
        (fun r => { r with depends_on_id := newID }) oldID _
        (fun x => x.issue_id ≠ oldID) (fun x hx => hx)
        (mem_mapUpd_get_ne DepRow.issue_id (fun r => { r with issue_id := newID })
          oldID newID db.wisp_dependencies (fun x => rfl) (Ne.symm hne)) r hr
    · exact mem_mapUpd_get_ne DepRow.depends_on_id
        (fun r => { r with depends_on_id := newID }) oldID newID _
        (fun x => rfl) (Ne.symm hne) r hr
  · intro r hr
    rcases List.mem_append.mp hr with h | h
    · exact mem_mapUpd_get_ne EventRow.issue_id (fun r => { r with issue_id := newID })
        oldID newID db.wisp_events (fun x => rfl) (Ne.symm hne) r h
    · rw [List.mem_singleton] at h
      subst h
      exact Ne.symm hne
  · exact mem_mapUpd_get_ne RefRow.issue_id (fun r => { r with issue_id := newID })
      oldID newID db.wisp_labels (fun x => rfl) (Ne.symm hne)
  · exact mem_mapUpd_get_ne RefRow.issue_id (fun r => { r with issue_id := newID })
      oldID newID db.wisp_comments (fun x => rfl) (Ne.symm hne)
  · rw [countP_mapUpd_count IssueRow.id (setIssueFields newID issue now) oldID newID
      db.wisps (fun r => rfl) (Ne.symm hne), h1, hnew]
  · unfold renamedCount at hev ⊢
    rw [List.countP_append,
      countP_mapUpd_pres EventRow.issue_id (fun r => { r with issue_id := newID }) oldID
        db.wisp_events
        (fun e => decide (e.event_type = "renamed".toList ∧ e.old_value = oldID ∧ e.new_value = newID))
        (fun r => rfl), hev]
    simp [renameEventRow]

/-- C1 (amended).  After a successful `UpdateIssueID` of a distinct
pair `(oldID, newID)`: when the old ID names a regular issue (not an
active wisp), no row of `issues`, `dependencies` (either column),
`events`, `labels`, `comments`, `issue_snapshots`,
`compaction_snapshots`, `child_counters`, `wisp_dependencies` (either
column), `wisp_events`, `wisp_labels`, or `wisp_comments` still
references the old ID, exactly one `issues` row carries the new ID,
and — provided no `renamed` event with
`(old_value, new_value) = (oldID, newID)` already exists — exactly one
such event records the rename afterwards; when the old ID names a
wisp, the same holds with only the wisp-side tables cascaded (the
issue-side tables are untouched) and the rename event recorded in
`wisp_events`.  The primary-key count hypotheses (old ID occurs
exactly once, new ID absent) are states the engine's primary key
enforces on every successful run; the no-prior-rename-event hypothesis
is the amendment: the cascade rewrites only `issue_id` of existing
events, so a pair that was renamed forth, back, and forth again ends
with two matching events (see
`UpdateIssueID_double_rename_counterexample`). -/
theorem UpdateIssueID_rename_cascade (o : Oracle) (conn conn' : Conn)
    (oldID newID : Str) (issue : Issue) (actor : Str) (now : Nat)
    (hne : oldID ≠ newID)
    (hrun : UpdateIssueID o conn oldID newID issue actor now = (.ok (), conn')) :
    (isActiveWisp conn.db oldID = false →
      conn.db.issues.countP (fun r => decide (r.id = oldID)) = 1 →
      conn.db.issues.countP (fun r => decide (r.id = newID)) = 0 →
      renamedCount conn.db.events oldID newID = 0 →
      issueRenamePost conn'.db oldID newID) ∧
    (isActiveWisp conn.db oldID = true →
      conn.db.wisps.countP (fun r => decide (r.id = oldID)) = 1 →
      conn.db.wisps.countP (fun r => decide (r.id = newID)) = 0 →
      renamedCount conn.db.wisp_events oldID newID = 0 →
      wispRenamePost conn.db conn'.db oldID newID) := by
  constructor
  · intro hw hc1 hc0 hev
    rw [UpdateIssueID] at hrun
    cases cb : o.beginOk <;> simp [cb] at hrun
    cases cs : o.setFK0Ok <;> simp [cs] at hrun
    rw [hw] at hrun
    rcases hc : updateIssueID o conn.db oldID newID issue actor now with e | db2 <;>
      simp [hc] at hrun
    cases ci : o.setFK1InlineOk <;> simp [ci] at hrun
    cases cc : o.commitOk <;> simp [cc] at hrun
    rw [← hrun]
    exact updateIssueID_ok_post o conn.db db2 oldID newID issue actor now hne hc1 hc0 hev hc
  · intro hw hc1 hc0 hev
    rw [UpdateIssueID] at hrun
    cases cb : o.beginOk <;> simp [cb] at hrun
    cases cs : o.setFK0Ok <;> simp [cs] at hrun
    rw [hw] at hrun
    rcases hc : updateWispID o conn.db oldID newID issue actor now with e | db2 <;>
      simp [hc] at hrun
    cases ci : o.setFK1InlineOk <;> simp [ci] at hrun
    cases cc : o.commitOk <;> simp [cc] at hrun
    rw [← hrun]
    exact updateWispID_ok_post o conn.db db2 oldID newID issue actor now hne hc1 hc0 hev hc

/-- A small concrete database: issue `a` with a dependency, an event,
and a wisp-side dependency referencing it. -/
def dbC1 : DB :=
  { emptyDB with
    issues := [{ id := "a".toList
                 title := "t".toList
                 description := []
                 design := []
                 acceptance_criteria := []
                 notes := []
                 updated_at := 0 }]
    dependencies := [{ issue_id := "a".toList, depends_on_id := "b".toList }]
    events := [{ issue_id := "a".toList
                 event_type := "created".toList
                 actor := "me".toList
                 old_value := []
                 new_value := [] }]
    labels := [{ issue_id := "a".toList, payload := "bug".toList }]
    wisp_dependencies := [{ issue_id := "w".toList, depends_on_id := "a".toList }] }

/-- Witness for `UpdateIssueID_rename_cascade`: renaming issue `a` to
`c` on `dbC1` with an all-success oracle satisfies the issue-branch
postcondition. -/
theorem UpdateIssueID_rename_cascade_witness :
    issueRenamePost
      (UpdateIssueID oracleAllOk { db := dbC1, fkChecks := true }
        "a".toList "c".toList issue0 "me".toList 7).2.db
      "a".toList "c".toList :=
  (UpdateIssueID_rename_cascade oracleAllOk { db := dbC1, fkChecks := true }
      (UpdateIssueID oracleAllOk { db := dbC1, fkChecks := true }
        "a".toList "c".toList issue0 "me".toList 7).2
      "a".toList "c".toList issue0 "me".toList 7 (by decide) rfl).1
    (by decide) (by decide) (by decide) (by decide)

/-- Whether a storage result is success. -/
def dbResultOk : Except DbErr Unit → Bool
  | .ok _ => true
  | .error _ => false

/-- A fresh database holding only the regular issue `x`. -/
def dbR0 : DB :=
  { emptyDB with
    issues := [{ id := "x".toList
                 title := "t".toList
                 description := []
                 design := []
                 acceptance_criteria := []
                 notes := []
                 updated_at := 0 }] }

/-- The connection after renaming `x` to `y` on `dbR0`. -/
def connR1 : Conn :=
  (UpdateIssueID oracleAllOk { db := dbR0, fkChecks := true }
    "x".toList "y".toList issue0 "me".toList 1).2

/-- The connection after renaming `y` back to `x` on `connR1`: the
cascade rewrote only the `issue_id` column of the first rename's
event, so its `(old_value, new_value) = (x, y)` pair survives while
issue `x` exists again. -/
def connR2 : Conn :=
  (UpdateIssueID oracleAllOk connR1 "y".toList "x".toList issue0 "me".toList 2).2

/-- C1 counterexample.  The state `connR2` is reached by two
successful renames (`x` to `y`, then `y` back to `x`) from a fresh
database; in it, `x` names an existing regular issue and `x ≠ y`.  A
third successful rename of `x` to `y` then leaves TWO `renamed` events
with `(old_value, new_value) = (x, y)` — the survivor of the first
rename and the newly inserted one — so the claim's "exactly one
'renamed' event exists with old_value = oldID and new_value = newID"
is false of the program in a reachable state. -/
theorem UpdateIssueID_double_rename_counterexample :
    ("x".toList ≠ "y".toList ∧
     dbResultOk (UpdateIssueID oracleAllOk { db := dbR0, fkChecks := true }
       "x".toList "y".toList issue0 "me".toList 1).1 = true ∧
     dbResultOk (UpdateIssueID oracleAllOk connR1 "y".toList "x".toList issue0
       "me".toList 2).1 = true) ∧
    isActiveWisp connR2.db "x".toList = false ∧
    connR2.db.issues.countP (fun r => decide (r.id = "x".toList)) = 1 ∧
    dbResultOk (UpdateIssueID oracleAllOk connR2 "x".toList "y".toList issue0
      "me".toList 3).1 = true ∧
    renamedCount
      (UpdateIssueID oracleAllOk connR2 "x".toList "y".toList issue0 "me".toList 3).2.db.events
      "x".toList "y".toList = 2 := by decide

/-! ## C9: prefix renaming -/

theorem likeMatch_percent_true (s : Str) : likeMatch ['%'] s = true := by
  rw [likeMatch.eq_def]
  dsimp only
  rw [if_pos rfl]
  simp only [List.any_eq_true, List.mem_range]
  refine ⟨s.length, by omega, ?_⟩
  rw [likeMatch.eq_def]
  dsimp only
  simp [List.drop_length]

theorem likeMatch_append_percent (old : Str)
    (hold : ∀ c ∈ old, c ≠ '%' ∧ c ≠ '_' ∧ c ≠ '\\') :
    ∀ s, likeMatch (old ++ ['%']) s = true ↔ old <+: s := by
  induction old with
  | nil =>
    intro s
    simp [likeMatch_percent_true]
  | cons c old ih =>
    intro s
    have hc : c ≠ '%' ∧ c ≠ '_' ∧ c ≠ '\\' := hold c (by simp)
    have ih2 := ih fun d hd => hold d (by simp [hd])
    cases s with
    | nil =>
      rw [List.cons_append, likeMatch.eq_def]
      dsimp only
      rw [if_neg hc.1, if_neg hc.2.2, if_neg hc.2.1]
      simp
    | cons a s =>
      rw [List.cons_append, likeMatch.eq_def]
      dsimp only
      rw [if_neg hc.1, if_neg hc.2.2, if_neg hc.2.1]
      simp only [Bool.and_eq_true, decide_eq_true_eq, ih2, List.cons_prefix_cons]
      constructor
      · rintro ⟨h1, h2⟩
        exact ⟨h1.symm, h2⟩
      · rintro ⟨h1, h2⟩
        exact ⟨h1.symm, h2⟩

/-- C9 (amended).  When the old prefix contains no `LIKE`
metacharacter (`%`, `_`, or the escape backslash), the rename rewrites
exactly the dependency rows whose `issue_id` or `depends_on_id`
literally starts with the old prefix, replacing that leading
occurrence with the new prefix and preserving the remainder, and
leaves every other value unchanged.  (With metacharacters in the old
prefix the unescaped `LIKE` pattern can match — and the statement
rewrite — additional rows; see the counterexample.) -/
theorem RenameDependencyPrefixTx_literal (oldP newP : Str)
    (hold : ∀ c ∈ oldP, c ≠ '%' ∧ c ≠ '_' ∧ c ≠ '\\') (deps : List DepRow) :
    RenameDependencyPrefixTx oldP newP deps =
      deps.map fun r : DepRow =>
        { issue_id :=
            if oldP <+: r.issue_id then newP ++ r.issue_id.drop oldP.length
            else r.issue_id
          depends_on_id :=
            if oldP <+: r.depends_on_id then newP ++ r.depends_on_id.drop oldP.length
            else r.depends_on_id } := by
  unfold RenameDependencyPrefixTx
  rw [List.map_map]
  induction deps with
  | nil => rfl
  | cons r deps ih =>
    rw [List.map_cons, List.map_cons, ih]
    congr 1
    by_cases h1 : oldP <+: r.issue_id <;> by_cases h2 : oldP <+: r.depends_on_id <;>
      simp [Function.comp, likeMatch_append_percent oldP hold, h1, h2]

/-- C9 counterexample.  With the old prefix `a%` (which contains the
`LIKE` wildcard `%`), the row `(abc, d)` does not literally start with
`a%`, yet `RenameDependencyPrefix` rewrites it (the pattern `a%%`
matches `abc`, and `SUBSTRING` chops two characters), producing
`(zc, d)` instead of leaving it unchanged as the claim requires. -/
theorem RenameDependencyPrefixTx_wildcard_counterexample :
    ¬ ("a%".toList <+: "abc".toList) ∧
    RenameDependencyPrefixTx "a%".toList "z".toList
        [{ issue_id := "abc".toList, depends_on_id := "d".toList }] =
      [{ issue_id := "zc".toList, depends_on_id := "d".toList }] := by decide

/-- Witness for `RenameDependencyPrefixTx_literal` at a concrete
metacharacter-free prefix and table. -/
theorem RenameDependencyPrefixTx_literal_witness :
    RenameDependencyPrefixTx "bd-".toList "pk-".toList
        [{ issue_id := "bd-1".toList, depends_on_id := "x".toList }] =
      [{ issue_id := "bd-1".toList, depends_on_id := "x".toList }].map
        (fun r : DepRow =>
          { issue_id :=
              if "bd-".toList <+: r.issue_id then "pk-".toList ++ r.issue_id.drop "bd-".toList.length
              else r.issue_id
            depends_on_id :=
              if "bd-".toList <+: r.depends_on_id then "pk-".toList ++ r.depends_on_id.drop "bd-".toList.length
              else r.depends_on_id }) :=
  RenameDependencyPrefixTx_literal "bd-".toList "pk-".toList (by decide)
    [{ issue_id := "bd-1".toList, depends_on_id := "x".toList }]

/-! ## C8: hash-ID classification -/

/-- `isHashID` agrees with all twelve vectors of `TestIsHashID`
(`src/unnamed/part_000`), which pin the modelled classifier to the
repository's behaviour. -/
theorem isHashID_matches_TestIsHashID :
    isHashID "bd-0jkc".toList = true ∧
    isHashID "bd-88".toList = false ∧
    isHashID "bd-12345".toList = true ∧
    isHashID "bd-0088".toList = false ∧
    isHashID "bd-1".toList = false ∧
    isHashID "bd-42".toList = false ∧
    isHashID "abc".toList = false ∧
    isHashID "bd-".toList = false ∧
    isHashID "bd-0jkc.1".toList = true ∧
    isHashID "bd-1.2".toList = false ∧
    isHashID "bd-ABCD".toList = false ∧
    isHashID "bd-ab!c".toList = false := by decide

/-- C8 counterexample.  On `bd-12345` the classifier reports
hash-based (the unit test `TestIsHashID` fixes this: "hash 5+ chars
all digits" expects `true`), but the claim's clause (a) demands at
least one letter in a leaf of five or more characters, so the claimed
characterization evaluates to `false` there. -/
theorem isHashID_allDigits5_counterexample :
    isHashID "bd-12345".toList = true ∧
    hashIDClaimPred "bd-12345".toList = false := by decide

/-- C8 (amended).  The classifier reports hash-based exactly when,
after stripping the prefix at the last `-` and the dot-separated tail,
the leaf is either (a) at least five characters and all lowercase
alphanumeric — no letter required — or (b) under five characters,
non-empty, all lowercase alphanumeric, with at least one lowercase
letter; identifiers with uppercase or special characters, an empty
leaf, no separator, or an all-digit leaf under five digits are not
hash-based. -/
theorem isHashID_amended_characterization (id : Str) :
    isHashID id = hashIDAmendedPred id := by
  unfold isHashID hashIDAmendedPred
  cases afterLastDash id with
  | none => rfl
  | some suffix =>
    dsimp only
    generalize takeUntilDot suffix = leaf
    unfold hashLeafOK
    by_cases hge : 5 ≤ leaf.length
    · have hne : leaf ≠ [] := by
        intro h
        subst h
        simp at hge
      have hlt : ¬ leaf.length < 5 := by omega
      simp [hge, hne, hlt]
    · have hlt : leaf.length < 5 := by omega
      simp [hge, hlt]

/-! ## C5: credential key migration -/

theorem migrate_foldl_map (enc : Str → Bytes → Bytes) (newKey : Bytes)
    (us : List (Str × Str)) (l : List PeerRow) :
    us.foldl (fun acc e => acc.map fun q =>
        if q.name = e.1 then { q with password_encrypted := some (enc e.2 newKey) } else q) l
      = l.map fun q => us.foldl (fun y e =>
          if y.name = e.1 then { y with password_encrypted := some (enc e.2 newKey) } else y) q := by
  induction us generalizing l with
  | nil => simp
  | cons u us ih =>
    simp only [List.foldl_cons, ih, List.map_map]
    rfl

theorem migrate_foldl_nomatch (enc : Str → Bytes → Bytes) (newKey : Bytes) :
    ∀ (us : List (Str × Str)) (q : PeerRow), (∀ e ∈ us, e.1 ≠ q.name) →
    us.foldl (fun y e =>
        if y.name = e.1 then { y with password_encrypted := some (enc e.2 newKey) } else y) q = q := by
  intro us
  induction us with
  | nil => intro q _; rfl
  | cons u us ih =>
    intro q h
    have hu : u.1 ≠ q.name := h u (by simp)
    simp only [List.foldl_cons]
    rw [if_neg fun hh => hu hh.symm]
    exact ih q fun e he => h e (by simp [he])

theorem migrate_foldl_single (enc : Str → Bytes → Bytes) (newKey : Bytes)
    (us : List (Str × Str)) (q : PeerRow)
    (hcount : us.countP (fun e => decide (e.1 = q.name)) ≤ 1) :
    us.foldl (fun y e =>
        if y.name = e.1 then { y with password_encrypted := some (enc e.2 newKey) } else y) q
      = match us.find? (fun e => decide (e.1 = q.name)) with
        | none => q
        | some e => { q with password_encrypted := some (enc e.2 newKey) } := by
  induction us with
  | nil => rfl
  | cons u us ih =>
    by_cases hu : u.1 = q.name
    · have htail : ∀ e ∈ us, e.1 ≠ q.name := by
        intro e he heq
        have h2 : 0 < us.countP (fun e => decide (e.1 = q.name)) :=
          List.countP_pos_iff.mpr ⟨e, he, by simp [heq]⟩
        have h3 : (u :: us).countP (fun e => decide (e.1 = q.name))
            = us.countP (fun e => decide (e.1 = q.name)) + 1 := by
          simp [List.countP_cons, hu]
        omega
      simp only [List.foldl_cons]
      rw [if_pos hu.symm]
      rw [migrate_foldl_nomatch enc newKey us
        { q with password_encrypted := some (enc u.2 newKey) } htail]
      simp [List.find?_cons, hu]
    · have hcount2 : us.countP (fun e => decide (e.1 = q.name)) ≤ 1 := by
        have h3 : (u :: us).countP (fun e => decide (e.1 = q.name))
            = us.countP (fun e => decide (e.1 = q.name)) := by
          simp [List.countP_cons, hu]
        omega
      simp only [List.foldl_cons]
      rw [if_neg fun hh => hu hh.symm]
      rw [ih hcount2]
      simp [List.find?_cons, hu]

theorem mem_migrationEntries_name (dec : Bytes → Bytes → Option Str) (oldKey : Bytes)
    (peers : List PeerRow) :
    ∀ e ∈ migrationEntries dec oldKey peers, e.1 ∈ peers.map PeerRow.name := by
  intro e he
  simp only [migrationEntries, List.mem_filterMap] at he
  obtain ⟨p, hp, hpe⟩ := he
  cases hpw : p.password_encrypted with
  | none =>
    rw [hpw] at hpe
    simp at hpe
  | some b =>
    rw [hpw] at hpe
    by_cases hb : b = []
    · simp [hb] at hpe
    · simp only [hb, if_neg, if_false, Option.map_eq_some'] at hpe
      obtain ⟨pt, _, hpt⟩ := hpe
      rw [← hpt]
      exact List.mem_map.mpr ⟨p, hp, rfl⟩

theorem migrationEntries_lookup (dec : Bytes → Bytes → Option Str) (oldKey : Bytes) :
    ∀ (peers : List PeerRow), (peers.map PeerRow.name).Nodup →
    ∀ q ∈ peers,
      (migrationEntries dec oldKey peers).countP (fun e => decide (e.1 = q.name)) ≤ 1 ∧
      (migrationEntries dec oldKey peers).find? (fun e => decide (e.1 = q.name)) =
        (match q.password_encrypted with
         | some b => if b = [] then none else (dec b oldKey).map fun pt => (q.name, pt)
         | none => none) := by
  intro peers
  induction peers with
  | nil =>
    intro _ q hq
    cases hq
  | cons p rest ih =>
    intro hnd q hq
    rw [List.map_cons, List.nodup_cons] at hnd
    have hrest : ∀ e ∈ migrationEntries dec oldKey rest, e.1 ≠ p.name := by
      intro e he heq
      exact hnd.1 (heq ▸ mem_migrationEntries_name dec oldKey rest e he)
    rcases List.mem_cons.mp hq with rfl | hq2
    · have hnone : ∀ e ∈ migrationEntries dec oldKey rest, ¬ (decide (e.1 = q.name) = true) := by
        intro e he
        simpa using hrest e he
      have hcount0 : (migrationEntries dec oldKey rest).countP
          (fun e => decide (e.1 = q.name)) = 0 :=
        List.countP_eq_zero.mpr hnone
      have hfind0 : (migrationEntries dec oldKey rest).find?
          (fun e => decide (e.1 = q.name)) = none :=
        List.find?_eq_none.mpr hnone
      cases hpw : q.password_encrypted with
      | none =>
        have hstep : migrationEntries dec oldKey (q :: rest) = migrationEntries dec oldKey rest := by
          simp [migrationEntries, List.filterMap_cons, hpw]
        rw [hstep, hcount0, hfind0]
        exact ⟨by omega, rfl⟩
      | some b =>
        by_cases hb : b = []
        · have hstep : migrationEntries dec oldKey (q :: rest) = migrationEntries dec oldKey rest := by
            simp [migrationEntries, List.filterMap_cons, hpw, hb]
          rw [hstep, hcount0, hfind0]
          exact ⟨by omega, by simp [hb]⟩
        · cases hdec : dec b oldKey with
          | none =>
            have hstep : migrationEntries dec oldKey (q :: rest) = migrationEntries dec oldKey rest := by
              simp [migrationEntries, List.filterMap_cons, hpw, hb, hdec]
            rw [hstep, hcount0, hfind0]
            exact ⟨by omega, by simp [hb, hdec]⟩
          | some pt =>
            have hstep : migrationEntries dec oldKey (q :: rest)
                = (q.name, pt) :: migrationEntries dec oldKey rest := by
              simp [migrationEntries, List.filterMap_cons, hpw, hb, hdec]
            rw [hstep]
            constructor
            · rw [List.countP_cons]
              simp only [hcount0]
              simp
            · rw [List.find?_cons]
              simp [hb, hdec]
    · have hqname : q.name ∈ rest.map PeerRow.name := List.mem_map.mpr ⟨q, hq2, rfl⟩
      have hpq : ¬ (p.name = q.name) := fun h => hnd.1 (h ▸ hqname)
      obtain ⟨ihc, ihf⟩ := ih hnd.2 q hq2
      cases hpw : p.password_encrypted with
      | none =>
        have hstep : migrationEntries dec oldKey (p :: rest) = migrationEntries dec oldKey rest := by
          simp [migrationEntries, List.filterMap_cons, hpw]
        rw [hstep]
        exact ⟨ihc, ihf⟩
      | some b =>
        by_cases hb : b = []
        · have hstep : migrationEntries dec oldKey (p :: rest) = migrationEntries dec oldKey rest := by
            simp [migrationEntries, List.filterMap_cons, hpw, hb]
          rw [hstep]
          exact ⟨ihc, ihf⟩
        · cases hdec : dec b oldKey with
          | none =>
            have hstep : migrationEntries dec oldKey (p :: rest) = migrationEntries dec oldKey rest := by
              simp [migrationEntries, List.filterMap_cons, hpw, hb, hdec]
            rw [hstep]
            exact ⟨ihc, ihf⟩
          | some pt =>
            have hstep : migrationEntries dec oldKey (p :: rest)
                = (p.name, pt) :: migrationEntries dec oldKey rest := by
              simp [migrationEntries, List.filterMap_cons, hpw, hb, hdec]
            rw [hstep]
            constructor
            · rw [List.countP_cons]
              simp [hpq, ihc]
            · rw [List.find?_cons]
              simp only [hpq, decide_eq_true_eq, if_neg, if_false]
              exact ihf

/-- C5.  With distinct peer names (the primary-key invariant of
`federation_peers`), the credential migration re-encrypts under the
new key exactly those peers whose non-empty stored password decrypts
under the legacy key `SHA256(dbPath || "beads-federation-key-v1")`,
and leaves every other peer row unchanged — in particular, rows whose
password is NULL or empty, and rows whose password fails to decrypt
under the legacy key, keep their stored ciphertext byte for byte. -/
theorem migrateCredentialKeys_exact (dec : Bytes → Bytes → Option Str)
    (enc : Str → Bytes → Bytes) (sha256 : Str → Bytes) (dbPath : Str)
    (newKey : Bytes) (peers : List PeerRow)
    (hnd : (peers.map PeerRow.name).Nodup) :
    migrateCredentialKeys dec enc (legacyEncryptionKey sha256 dbPath) newKey peers =
      peers.map fun p =>
        match p.password_encrypted with
        | none => p
        | some b =>
          if b = [] then p
          else
            match dec b (legacyEncryptionKey sha256 dbPath) with
            | none => p
            | some pt => { p with password_encrypted := some (enc pt newKey) } := by
  unfold migrateCredentialKeys
  rw [migrate_foldl_map]
  apply List.map_congr_left
  intro q hq
  obtain ⟨hc, hf⟩ :=
    migrationEntries_lookup dec (legacyEncryptionKey sha256 dbPath) peers hnd q hq
  rw [migrate_foldl_single enc newKey _ q hc, hf]
  cases hpw : q.password_encrypted with
  | none => rfl
  | some b =>
    by_cases hb : b = []
    · simp [hb]
    · cases hdec : dec b (legacyEncryptionKey sha256 dbPath) with
      | none => simp [hb, hdec]
      | some pt => simp [hb, hdec]

/-- A concrete decryptor for the migration witness: only the
ciphertext `[1]` decrypts (to `pw`). -/
def decC5 : Bytes → Bytes → Option Str :=
  fun b _ => if b = [1] then some "pw".toList else none

/-- A concrete encryptor for the migration witness. -/
def encC5 : Str → Bytes → Bytes := fun _ _ => [7]

/-- A concrete stand-in hash for the migration witness. -/
def shaC5 : Str → Bytes := fun _ => [9]

/-- Concrete peers table: one migratable password, one undecryptable
password, one NULL password. -/
def peersC5 : List PeerRow :=
  [{ name := "p".toList, remote_url := [], username := [],
     password_encrypted := some [1], sovereignty := [], last_sync := none, updated_at := 0 },
   { name := "q".toList, remote_url := [], username := [],
     password_encrypted := some [2], sovereignty := [], last_sync := none, updated_at := 0 },
   { name := "r".toList, remote_url := [], username := [],
     password_encrypted := none, sovereignty := [], last_sync := none, updated_at := 0 }]

/-- Witness for `migrateCredentialKeys_exact` on `peersC5`. -/
theorem migrateCredentialKeys_exact_witness :
    migrateCredentialKeys decC5 encC5 (legacyEncryptionKey shaC5 "db".toList) [3] peersC5 =
      peersC5.map fun p =>
        match p.password_encrypted with
        | none => p
        | some b =>
          if b = [] then p
          else
            match decC5 b (legacyEncryptionKey shaC5 "db".toList) with
            | none => p
            | some pt => { p with password_encrypted := some (encC5 pt [3]) } :=
  migrateCredentialKeys_exact decC5 encC5 shaC5 "db".toList [3] peersC5 (by decide)

/-! ## C6: credential environment handling -/

/-- C6.  For a stored peer (successful lookup) and any callback
outcome, `withPeerCredentials` leaves both `DOLT_REMOTE_USER` and
`DOLT_REMOTE_PASSWORD` unset on exit (they start unset under the
mutex, are set only when the peer has credentials, and the deferred
cleanup unsets them on every exit path); the result is the callback's
outcome; and the peer's `last_sync` is updated if and only if the
callback returned nil (on error the peers table is untouched). -/
theorem withPeerCredentials_env_lastSync (dec : Bytes → Bytes → Option Str)
    (key : Option Bytes) (now : Nat) (st : FedState) (peerName : Str)
    (fnErr : Option FedErr) (peer : Peer)
    (hget : GetFederationPeer dec key st.peers peerName = .ok peer)
    (hu : st.envUser = none) (hp : st.envPassword = none) :
    ((withPeerCredentials dec key now st peerName fnErr).2.envUser = none ∧
     (withPeerCredentials dec key now st peerName fnErr).2.envPassword = none) ∧
    (withPeerCredentials dec key now st peerName fnErr).1
      = (match fnErr with | none => .ok () | some e => .error e) ∧
    (withPeerCredentials dec key now st peerName fnErr).2.peers
      = (match fnErr with
         | none => updatePeerLastSync now st.peers peerName
         | some _ => st.peers) := by
  have hpeers1 : ∀ u p, (setFederationCredentials st u p).peers = st.peers := by
    intro u p
    unfold setFederationCredentials
    split_ifs <;> rfl
  unfold withPeerCredentials
  rw [hget]
  by_cases hcred : peer.username ≠ [] ∨ peer.password ≠ [] <;>
    cases fnErr <;>
      simp [hcred, clearFederationCredentials, hpeers1, hu, hp]

/-- Concrete state for the `withPeerCredentials` witness. -/
def stC6 : FedState :=
  { peers := [{ name := "p".toList, remote_url := "u".toList, username := "alice".toList,
                password_encrypted := some [1], sovereignty := [], last_sync := none,
                updated_at := 0 }]
    envUser := none
    envPassword := none }

/-- Witness for `withPeerCredentials_env_lastSync`: a successful sync
with peer `p` (whose password `[1]` decrypts under `decC5`). -/
theorem withPeerCredentials_env_lastSync_witness :
    (((withPeerCredentials decC5 (some [9]) 5 stC6 "p".toList none).2.envUser = none ∧
      (withPeerCredentials decC5 (some [9]) 5 stC6 "p".toList none).2.envPassword = none) ∧
     (withPeerCredentials decC5 (some [9]) 5 stC6 "p".toList none).1
       = (match (none : Option FedErr) with | none => .ok () | some e => .error e) ∧
     (withPeerCredentials decC5 (some [9]) 5 stC6 "p".toList none).2.peers
       = (match (none : Option FedErr) with
          | none => updatePeerLastSync 5 stC6.peers "p".toList
          | some _ => stC6.peers)) :=
  withPeerCredentials_env_lastSync decC5 (some [9]) 5 stC6 "p".toList none
    { name := "p".toList, remote_url := "u".toList, username := "alice".toList,
      password := "pw".toList, sovereignty := [], last_sync := none }
    rfl rfl rfl

/-! ## C7: peer name validation -/

/-- The claim's invalidity condition: empty name, longer than 64
characters, or outside `^[A-Za-z][A-Za-z0-9_-]*$`. -/
def invalidName (name : Str) : Prop :=
  name = [] ∨ 64 < name.length ∨ ¬ peerNameMatches name = true

/-- Whether an `AddFederationPeer` outcome is a validation error. -/
def resultIsValidation : Except FedErr Unit → Bool
  | .error e => e.isValidation
  | .ok _ => false

theorem validatePeerName_none_iff (name : Str) :
    validatePeerName name = none ↔ ¬ invalidName name := by
  unfold validatePeerName invalidName
  split_ifs with h1 h2 h3
  · simp [h1]
  · simp [h2]
  · simp [h3]
    exact ⟨h1, by omega⟩
  · simp [h3]

theorem validatePeerName_some_validation (name : Str) (e : FedErr)
    (h : validatePeerName name = some e) : e.isValidation = true := by
  unfold validatePeerName at h
  split_ifs at h <;> simp at h <;> subst h <;> rfl

theorem validatePeerName_some_invalid (name : Str) (e : FedErr)
    (h : validatePeerName name = some e) : invalidName name := by
  unfold validatePeerName at h
  unfold invalidName
  split_ifs at h with h1 h2 h3
  · exact Or.inl h1
  · exact Or.inr (Or.inl h2)
  · exact Or.inr (Or.inr h3)

theorem AddRemote_fst (remoteOk : Bool) (remotes : List (Str × Str)) (name url : Str) :
    (AddRemote remoteOk remotes name url).1 = none ∨
    (AddRemote remoteOk remotes name url).1 = some .remoteFailed ∨
    (AddRemote remoteOk remotes name url).1 = some .remoteAlreadyExists := by
  unfold AddRemote
  split_ifs <;> simp

theorem upsertPeer_mem (peers : List PeerRow) (peer : PeerInput) (pwd : Option Bytes)
    (now : Nat) :
    ∃ r ∈ upsertPeer peers peer pwd now,
      r.name = peer.name ∧ r.remote_url = peer.remote_url ∧
      r.username = peer.username ∧ r.sovereignty = peer.sovereignty := by
  unfold upsertPeer
  by_cases h : peers.any (fun q => decide (q.name = peer.name)) = true
  · rw [if_pos h]
    obtain ⟨q, hq, hqname⟩ := List.any_eq_true.mp h
    rw [decide_eq_true_eq] at hqname
    refine ⟨{ q with remote_url := peer.remote_url
                     username := peer.username
                     password_encrypted := pwd
                     sovereignty := peer.sovereignty
                     updated_at := now },
      List.mem_map.mpr ⟨q, hq, by rw [if_pos hqname]⟩, hqname, rfl, rfl, rfl⟩
  · rw [if_neg h]
    exact ⟨_, List.mem_append.mpr (Or.inr (List.mem_singleton.mpr rfl)),
      rfl, rfl, rfl, rfl⟩

/-- C7.  `AddFederationPeer` returns a validation error — and leaves
both the peers table and the remote registry untouched — exactly when
the peer name is empty, longer than 64 characters, or fails the
pattern `^[A-Za-z][A-Za-z0-9_-]*$`; for every valid name (and an
initialized credential key whenever the password is non-empty, since
encryption is attempted first) the peer row is upserted with the
peer's fields, whatever the engine's `AddRemote` outcome. -/
theorem AddFederationPeer_validation_iff (enc : Str → Bytes → Bytes)
    (key : Option Bytes) (remoteOk : Bool) (now : Nat) (st : EngineState)
    (peer : PeerInput) :
    (resultIsValidation (AddFederationPeer enc key remoteOk now st peer).1 = true ↔
      invalidName peer.name) ∧
    (invalidName peer.name → (AddFederationPeer enc key remoteOk now st peer).2 = st) ∧
    (¬ invalidName peer.name → (peer.password = [] ∨ key ≠ none) →
      ∃ r ∈ (AddFederationPeer enc key remoteOk now st peer).2.peers,
        r.name = peer.name ∧ r.remote_url = peer.remote_url ∧
        r.username = peer.username ∧ r.sovereignty = peer.sovereignty) := by
  cases hv : validatePeerName peer.name with
  | some e =>
    have hvd := validatePeerName_some_validation peer.name e hv
    have hinv := validatePeerName_some_invalid peer.name e hv
    unfold AddFederationPeer
    rw [hv]
    exact ⟨by simp [resultIsValidation, hvd, hinv], fun _ => rfl,
      fun hno _ => absurd hinv hno⟩
  | none =>
    have hval : ¬ invalidName peer.name := (validatePeerName_none_iff peer.name).mp hv
    unfold AddFederationPeer
    rw [hv]
    rcases hE : (if peer.password ≠ [] then encryptPassword enc key peer.password
        else .ok none) with e | pwd
    · have hcase : e = FedErr.keyNotInitialized ∧ peer.password ≠ [] ∧ key = none := by
        by_cases hpw : peer.password = []
        · rw [if_neg (by simp [hpw])] at hE
          exact absurd hE (by simp)
        · rw [if_pos hpw] at hE
          unfold encryptPassword at hE
          rw [if_neg hpw] at hE
          cases key with
          | none =>
            simp only [Except.error.injEq] at hE
            exact ⟨hE.symm, hpw, rfl⟩
          | some k => exact absurd hE (by simp)
      obtain ⟨he, hpw, hkey⟩ := hcase
      subst he
      refine ⟨by simp [resultIsValidation, hval, FedErr.isValidation],
        fun h => absurd h hval, fun _ hok => ?_⟩
      rcases hok with h | h
      · exact absurd h hpw
      · exact absurd hkey h
    · rcases hR : AddRemote remoteOk st.remotes peer.name peer.remote_url with ⟨o2, rem2⟩
      have hO := AddRemote_fst remoteOk st.remotes peer.name peer.remote_url
      rw [hR] at hO
      simp only at hO
      rcases hO with ho | ho | ho <;> subst ho
      · refine ⟨by simp [resultIsValidation, hval], fun h => absurd h hval, fun _ _ => ?_⟩
        obtain ⟨r, hr, h1, h2, h3, h4⟩ := upsertPeer_mem st.peers peer pwd now
        exact ⟨r, hr, h1, h2, h3, h4⟩
      · refine ⟨by simp [resultIsValidation, hval, FedErr.isValidation],
          fun h => absurd h hval, fun _ _ => ?_⟩
        obtain ⟨r, hr, h1, h2, h3, h4⟩ := upsertPeer_mem st.peers peer pwd now
        exact ⟨r, hr, h1, h2, h3, h4⟩
      · refine ⟨by simp [resultIsValidation, hval], fun h => absurd h hval, fun _ _ => ?_⟩
        obtain ⟨r, hr, h1, h2, h3, h4⟩ := upsertPeer_mem st.peers peer pwd now
        exact ⟨r, hr, h1, h2, h3, h4⟩

/-- Witness for `AddFederationPeer_validation_iff`: a valid name on an
empty state upserts the row (third conjunct, hypotheses discharged). -/
theorem AddFederationPeer_validation_iff_witness :
    ∃ r ∈ (AddFederationPeer encC5 (some [9]) true 3 { peers := [], remotes := [] }
        { name := "alice".toList, remote_url := "u".toList, username := "a".toList,
          password := "pw".toList, sovereignty := [] }).2.peers,
      r.name = "alice".toList ∧ r.remote_url = "u".toList ∧
      r.username = "a".toList ∧ r.sovereignty = [] :=
  (AddFederationPeer_validation_iff encC5 (some [9]) true 3 { peers := [], remotes := [] }
      { name := "alice".toList, remote_url := "u".toList, username := "a".toList,
        password := "pw".toList, sovereignty := [] }).2.2
    (by unfold invalidName; decide) (Or.inr (by decide))

/-! ## C10: peer removal is total and idempotent -/

/-- C10.  `RemoveFederationPeer` reports success on every state —
including when no peer row with the name exists — after deleting any
matching credential rows and best-effort removing the engine remote
(whose error is discarded); running it twice gives the same state, so
the operation is idempotent at the public interface. -/
theorem RemoveFederationPeer_idempotent_ok (st : EngineState) (name : Str) :
    (RemoveFederationPeer st name).1 = .ok () ∧
    (∀ p ∈ (RemoveFederationPeer st name).2.peers, p.name ≠ name) ∧
    (∀ r ∈ (RemoveFederationPeer st name).2.remotes, r.1 ≠ name) ∧
    RemoveFederationPeer (RemoveFederationPeer st name).2 name
      = (.ok (), (RemoveFederationPeer st name).2) := by
  have hpeers : ∀ p ∈ st.peers.filter (fun p => decide (p.name ≠ name)), p.name ≠ name := by
    intro p hp
    simpa using List.of_mem_filter hp
  have hrem : ∀ r ∈ (RemoveRemote st.remotes name).2, r.1 ≠ name := by
    unfold RemoveRemote
    by_cases h : st.remotes.any (fun r => decide (r.1 = name)) = true
    · rw [if_pos h]
      intro r hr
      simpa using List.of_mem_filter hr
    · rw [if_neg h]
      rw [Bool.not_eq_true, List.any_eq_false] at h
      intro r hr
      simpa using h r hr
  refine ⟨rfl, hpeers, hrem, ?_⟩
  have hP2 : ((st.peers.filter fun p => decide (p.name ≠ name)).filter
      fun p => decide (p.name ≠ name)) = st.peers.filter fun p => decide (p.name ≠ name) :=
    List.filter_eq_self.mpr fun p hp => by simpa using hpeers p hp
  have hR2 : (RemoveRemote (RemoveRemote st.remotes name).2 name).2
      = (RemoveRemote st.remotes name).2 := by
    conv_lhs => rw [RemoveRemote]
    rw [if_neg]
    rw [Bool.not_eq_true, List.any_eq_false]
    intro r hr
    simpa using hrem r hr
  exact congrArg (Prod.mk (Except.ok ())) (congrArg₂ EngineState.mk hP2 hR2)

/-! ## C4 support: GCM wrapping structure lemmas -/

theorem xorBytes_length (a b : Bytes) : (xorBytes a b).length = min a.length b.length := by
  simp [xorBytes]

theorem xorBytes_cancel : ∀ (ks a : Bytes), a.length ≤ ks.length →
    xorBytes ks (xorBytes ks a) = a := by
  intro ks
  induction ks with
  | nil =>
    intro a ha
    simp at ha
    subst ha
    rfl
  | cons k ks ih =>
    intro a ha
    cases a with
    | nil => rfl
    | cons x a =>
      simp only [xorBytes, List.zipWith_cons_cons, List.cons.injEq]
      refine ⟨?_, ih a (by simpa using ha)⟩
      show k ^^^ (k ^^^ x) = x
      rw [← Nat.xor_assoc, Nat.xor_self, Nat.zero_xor]

theorem keystream_length (blockE : Bytes → Bytes → Bytes) (key nonce : Bytes) (n : Nat)
    (hblock : ∀ b, (blockE key b).length = 16) :
    (keystream blockE key nonce n).length = n := by
  unfold keystream
  rw [List.length_take]
  have hrep : ((List.range (n / 16 + 1)).map fun i => blockE key (nonce ++ be32 (2 + i))).map
      List.length = List.replicate (n / 16 + 1) 16 := by
    rw [List.map_map]
    apply List.eq_replicate_iff.mpr
    refine ⟨by simp, ?_⟩
    intro b hb
    rcases List.mem_map.mp hb with ⟨i, _, rfl⟩
    exact hblock _
  have hlen : (((List.range (n / 16 + 1)).map
      fun i => blockE key (nonce ++ be32 (2 + i))).flatten).length = (n / 16 + 1) * 16 := by
    rw [List.length_flatten, hrep]
    simp [List.sum_replicate, Nat.smul_one_eq_cast]
  rw [hlen]
  have h1 := Nat.div_add_mod n 16
  have h2 : n % 16 < 16 := Nat.mod_lt n (by omega)
  omega

theorem bytesToStr_strToBytes (s : Str) : bytesToStr (strToBytes s) = s := by
  unfold bytesToStr strToBytes
  rw [List.map_map]
  have : (Char.ofNat ∘ Char.toNat) = id := by
    funext c
    exact Char.ofNat_toNat c
  rw [this, List.map_id]

/-- GCM round-trip: decrypting the sealed output with the same key
recovers the plaintext, for any block cipher and authenticator of the
right block sizes (CTR uses only the forward cipher, and the tag is
recomputed over the same ciphertext). -/
theorem decryptWithKey_encryptWithKey (blockE ghash : Bytes → Bytes → Bytes)
    (nonce key : Bytes) (pt : Str) (ct : Bytes)
    (hkey : key.length = 32) (hnonce : nonce.length = 12)
    (hblock : ∀ b, (blockE key b).length = 16)
    (hghash : ∀ h2 d, (ghash h2 d).length = 16)
    (henc : encryptWithKey blockE ghash nonce pt key = .ok ct) :
    decryptWithKey blockE ghash ct key = .ok pt := by
  unfold encryptWithKey at henc
  rw [if_neg (by simp [hkey])] at henc
  cases henc
  unfold gcmSeal decryptWithKey
  have hkl : (keystream blockE key nonce (strToBytes pt).length).length
      = (strToBytes pt).length := keystream_length blockE key nonce _ hblock
  have hCl : (xorBytes (keystream blockE key nonce (strToBytes pt).length)
      (strToBytes pt)).length = (strToBytes pt).length := by
    rw [xorBytes_length, hkl]
    simp
  have hTl : (xorBytes (blockE key (nonce ++ be32 1))
      (ghash (blockE key (List.replicate 16 0))
        (xorBytes (keystream blockE key nonce (strToBytes pt).length)
          (strToBytes pt)))).length = 16 := by
    rw [xorBytes_length, hblock, hghash]
    simp
  rw [if_neg (by simp [hkey])]
  rw [if_neg (by simp [List.length_append, hnonce, hCl, hTl])]
  rw [List.append_assoc, List.take_left' hnonce, List.drop_left' hnonce]
  rw [if_neg (by rw [List.length_append, hCl, hTl]; omega)]
  rw [List.length_append, hCl, hTl, Nat.add_sub_cancel,
    List.take_left' hCl, List.drop_left' hCl]
  rw [if_pos rfl]
  rw [hCl]
  rw [xorBytes_cancel _ _ (by rw [hkl])]
  rw [bytesToStr_strToBytes]

/-- Inputs shorter than the 12-byte GCM nonce are rejected
("ciphertext too short"). -/
theorem decryptWithKey_short (blockE ghash : Bytes → Bytes → Bytes) (e key : Bytes)
    (hkey : key.length = 32) (h : e.length < 12) :
    decryptWithKey blockE ghash e key = .error .tooShort := by
  unfold decryptWithKey
  rw [if_neg (by simp [hkey]), if_pos h]

/-- Witness for `decryptWithKey_short` at a concrete input. -/
theorem decryptWithKey_short_witness :
    decryptWithKey (fun _ _ => List.replicate 16 0) (fun _ _ => List.replicate 16 0)
      [1, 2, 3] (List.replicate 32 0) = .error .tooShort :=
  decryptWithKey_short (fun _ _ => List.replicate 16 0) (fun _ _ => List.replicate 16 0)
    [1, 2, 3] (List.replicate 32 0) (by simp) (by simp)

/-- The empty password encrypts to a nil (absent) ciphertext with no
error, regardless of key state. -/
theorem encryptPassword_empty (enc : Str → Bytes → Bytes) (key : Option Bytes) :
    encryptPassword enc key [] = .ok none := rfl

/-- Empty stored ciphertext decrypts to the empty string with no
error, regardless of key state. -/
theorem decryptPassword_empty (dec : Bytes → Bytes → Option Str) (key : Option Bytes) :
    decryptPassword dec key [] = .ok [] := rfl

set_option maxHeartbeats 1600000 in
/-- Witness for `decryptWithKey_encryptWithKey` at a concrete cipher
stand-in, key, nonce, and plaintext. -/
theorem decryptWithKey_encryptWithKey_witness :
    decryptWithKey (fun _ _ => List.replicate 16 0) (fun _ _ => List.replicate 16 9)
      ((encryptWithKey (fun _ _ => List.replicate 16 0) (fun _ _ => List.replicate 16 9)
          (List.replicate 12 0) "s3cret".toList (List.replicate 32 1)).toOption.getD [])
      (List.replicate 32 1) = .ok "s3cret".toList :=
  decryptWithKey_encryptWithKey (fun _ _ => List.replicate 16 0)
    (fun _ _ => List.replicate 16 9) (List.replicate 12 0) (List.replicate 32 1)
    "s3cret".toList _ (by simp) (by simp)
    (fun b => by simp) (fun h2 d => by simp) rfl

/-- Witness for `RemoveFederationPeer_idempotent_ok` on a concrete
state with no matching peer. -/
theorem RemoveFederationPeer_idempotent_ok_witness :
    (RemoveFederationPeer { peers := [], remotes := [("r".toList, "u".toList)] }
        "x".toList).1 = .ok () ∧
    RemoveFederationPeer
        (RemoveFederationPeer { peers := [], remotes := [("r".toList, "u".toList)] }
          "x".toList).2 "x".toList
      = (.ok (), (RemoveFederationPeer { peers := [], remotes := [("r".toList, "u".toList)] }
          "x".toList).2) :=
  ⟨(RemoveFederationPeer_idempotent_ok
      { peers := [], remotes := [("r".toList, "u".toList)] } "x".toList).1,
   (RemoveFederationPeer_idempotent_ok
      { peers := [], remotes := [("r".toList, "u".toList)] } "x".toList).2.2.2⟩
